import Mathlib

/-!
Verification of the go-usda client library (package usda).

The Go source is shallowly embedded: Go byte strings become `List Nat`
(each entry a byte value), machine integers become `Int`/`Nat`, fallible
functions return `Except`/pairs with `Option GoError`, and Go's panics at
construction time become the `error` branch of an `Except`.

The package leans on three standard-library behaviours that the claims
depend on, so the relevant fragments of `net/url`, `encoding/json` and
`github.com/google/go-querystring/query` are embedded as well, translated
from their sources:
  * `net/url`: `shouldEscape`, `escape`, `unescape`, `Parse`, `String`,
    `Values.Encode`, `ParseQuery` and friends;
  * `encoding/json`: field-order object encoding with `omitempty`
    (an empty value is false, 0, "", a nil pointer, or a length-0
    slice/map/string) and decoding that records the first error but keeps
    decoding the remaining object members;
  * `go-querystring`: reflection over the three `url:"...,omitempty"`
    fields of `USDAQueryOptions`.

JSON bodies are represented by their parsed value (`Json` below): the
request body equals the `Json` value that `json.Encoder` serialises, and
"parsed as JSON" equality is equality of `Json` values.  JSON numbers are
modeled as exact rationals; none of the verified claims concerns
floating-point rounding.
-/

/-- A Go (byte) string: the list of its bytes. -/
abbrev GoStr := List Nat

/-- Bytes of an ASCII string literal (for ASCII text this equals Go's UTF-8 bytes). -/
def ascii (s : String) : GoStr := s.data.map Char.toNat

/-- Well-formed byte string: every entry is an actual byte. -/
abbrev ValidStr (s : GoStr) : Prop := ∀ b ∈ s, b < 256

/-- strings.Cut on a one-byte separator: (before, after, found). -/
def cutByte (sep : Nat) : GoStr → GoStr × GoStr × Bool
  | [] => ([], [], false)
  | c :: t =>
    if c = sep then ([], t, true)
    else
      let r := cutByte sep t
      (c :: r.1, r.2.1, r.2.2)

/-- strings.Contains for a one-byte needle. -/
def containsByte (sep : Nat) (s : GoStr) : Bool := s.any (· = sep)

/-- Split at the last occurrence of a byte: some (before, after), or none if absent. -/
def cutLast (sep : Nat) : GoStr → Option (GoStr × GoStr)
  | [] => none
  | c :: t =>
    match cutLast sep t with
    | some (a, b) => some (c :: a, b)
    | none => if c = sep then some ([], t) else none

/-- strings.Index for a one-byte needle. -/
def indexOfByte (sep : Nat) : GoStr → Option Nat
  | [] => none
  | c :: t => if c = sep then some 0 else (indexOfByte sep t).map (· + 1)

/-- strings.Index for a multi-byte needle (first position where it is a prefix). -/
def indexOfSub (pat : GoStr) : GoStr → Option Nat
  | [] => if pat = [] then some 0 else none
  | c :: t => if pat.isPrefixOf (c :: t) then some 0 else (indexOfSub pat t).map (· + 1)

/-- Split on every occurrence of a byte (strings.Split); n separators give n+1 parts. -/
def splitByte (sep : Nat) : GoStr → List GoStr
  | [] => [[]]
  | c :: t =>
    let r := splitByte sep t
    if c = sep then [] :: r
    else (c :: r.headD []) :: r.tail

/-- ASCII lowercasing (strings.ToLower restricted to the ASCII range). -/
def toLowerGo (s : GoStr) : GoStr :=
  s.map fun c => if 'A'.toNat ≤ c ∧ c ≤ 'Z'.toNat then c + 32 else c

/-- Go string comparison a < b (bytewise lexicographic). -/
def goStrLt : GoStr → GoStr → Bool
  | [], [] => false
  | [], _ :: _ => true
  | _ :: _, [] => false
  | a :: as, b :: bs => if a < b then true else if b < a then false else goStrLt as bs

/-- Errors surfaced by the embedded code (url, json, context, transport). -/
inductive GoError
  /-- url.EscapeError (bad percent escape), payload the offending bytes. -/
  | escapeErr (s : GoStr)
  /-- url.InvalidHostError (raw invalid byte in a host name). -/
  | hostErr (s : GoStr)
  /-- "missing protocol scheme". -/
  | missingScheme
  /-- "net/url: invalid control character in URL". -/
  | ctlByte
  /-- "first path segment in URL cannot contain colon". -/
  | colonSegment
  /-- "net/url: invalid userinfo". -/
  | badUserinfo
  /-- "invalid port ... after host". -/
  | badPort (s : GoStr)
  /-- "missing ']' in host". -/
  | missingBracket
  /-- The *url.Error wrapper that url.Parse puts around inner errors. -/
  | parseWrap (rawURL : GoStr) (e : GoError)
  /-- "invalid semicolon separator in query" from url.ParseQuery. -/
  | semicolonSeparator
  /-- json.UnmarshalTypeError, payload the Go type decoded into. -/
  | typeErr (ty : GoStr)
  /-- The response body is not valid JSON at all (json.SyntaxError). -/
  | invalidJSON
  /-- context.Canceled. -/
  | canceled
  /-- context.DeadlineExceeded. -/
  | deadlineExceeded
  /-- An error produced by the injected HTTP transport. -/
  | transportFailure (msg : GoStr)
  deriving DecidableEq

/-! ## net/url: escaping -/

/-- The encoding contexts of net/url. -/
inductive Encoding
  | path | pathSegment | host | zone | userPassword | queryComponent | fragment
  deriving DecidableEq

/-- net/url shouldEscape: whether byte c must be percent-encoded in the given context. -/
def shouldEscape (c : Nat) (mode : Encoding) : Bool :=
  -- §2.3 unreserved alphanumerics
  if ('a'.toNat ≤ c ∧ c ≤ 'z'.toNat) ∨ ('A'.toNat ≤ c ∧ c ≤ 'Z'.toNat) ∨
     ('0'.toNat ≤ c ∧ c ≤ '9'.toNat) then false
  -- §3.2.2 hosts additionally allow sub-delims and a few more
  else if (mode = .host ∨ mode = .zone) ∧
      (c = '!'.toNat ∨ c = '$'.toNat ∨ c = '&'.toNat ∨ c = 39 ∨
       c = '('.toNat ∨ c = ')'.toNat ∨ c = '*'.toNat ∨ c = '+'.toNat ∨
       c = ','.toNat ∨ c = ';'.toNat ∨ c = '='.toNat ∨ c = ':'.toNat ∨
       c = '['.toNat ∨ c = ']'.toNat ∨ c = '<'.toNat ∨ c = '>'.toNat ∨ c = 34) then false
  -- §2.3 unreserved marks
  else if c = '-'.toNat ∨ c = '_'.toNat ∨ c = '.'.toNat ∨ c = '~'.toNat then false
  -- §2.2 reserved characters, per context
  else if c = '$'.toNat ∨ c = '&'.toNat ∨ c = '+'.toNat ∨ c = ','.toNat ∨
          c = '/'.toNat ∨ c = ':'.toNat ∨ c = ';'.toNat ∨ c = '='.toNat ∨
          c = '?'.toNat ∨ c = '@'.toNat then
    match mode with
    | .path => decide (c = '?'.toNat)
    | .pathSegment => decide (c = '/'.toNat ∨ c = ';'.toNat ∨ c = ','.toNat ∨ c = '?'.toNat)
    | .userPassword => decide (c = '@'.toNat ∨ c = '/'.toNat ∨ c = '?'.toNat ∨ c = ':'.toNat)
    | .queryComponent => true
    | .fragment => false
    | .host => true
    | .zone => true
  else if mode = .fragment ∧
      (c = '!'.toNat ∨ c = '('.toNat ∨ c = ')'.toNat ∨ c = '*'.toNat) then false
  else true

/-- Upper-case hex digit of a nibble ("0123456789ABCDEF"). -/
def upperhexDigit (d : Nat) : Nat :=
  if d < 10 then '0'.toNat + d else 'A'.toNat + (d - 10)

/-- The bytes net/url escape emits for one input byte. -/
def escapeByte (c : Nat) (mode : Encoding) : GoStr :=
  if shouldEscape c mode then
    if c = ' '.toNat ∧ mode = .queryComponent then ['+'.toNat]
    else ['%'.toNat, upperhexDigit (c / 16), upperhexDigit (c % 16)]
  else [c]

/-- net/url escape (the size-precomputation pass of the source only avoids allocation). -/
def escape (s : GoStr) (mode : Encoding) : GoStr := s.flatMap (escapeByte · mode)

/-- net/url ishex. -/
def ishex (c : Nat) : Bool :=
  ('0'.toNat ≤ c ∧ c ≤ '9'.toNat) ∨ ('a'.toNat ≤ c ∧ c ≤ 'f'.toNat) ∨
  ('A'.toNat ≤ c ∧ c ≤ 'F'.toNat)

/-- net/url unhex. -/
def unhex (c : Nat) : Nat :=
  if '0'.toNat ≤ c ∧ c ≤ '9'.toNat then c - '0'.toNat
  else if 'a'.toNat ≤ c ∧ c ≤ 'f'.toNat then c - 'a'.toNat + 10
  else if 'A'.toNat ≤ c ∧ c ≤ 'F'.toNat then c - 'A'.toNat + 10
  else 0

/-- net/url unescape: percent-decoding with the per-context validity checks
(single pass; the Go source first validates and then decodes the same way).
Fuelled so that recursion stays structural: every step consumes at least one
input byte, so fuel equal to the input length never runs out. -/
def unescapeLoop (mode : Encoding) : Nat → GoStr → Except GoError GoStr
  | 0, _ => .ok []
  | _ + 1, [] => .ok []
  | fuel + 1, c :: rest =>
    if c = '%'.toNat then
      match rest with
      | h1 :: h2 :: t =>
        if ishex h1 ∧ ishex h2 then
          -- in a host, %-encoding is only for non-ASCII bytes, except %25
          if mode = .host ∧ unhex h1 < 8 ∧ ¬(h1 = '2'.toNat ∧ h2 = '5'.toNat) then
            .error (.escapeErr [c, h1, h2])
          else if mode = .zone ∧ ¬(h1 = '2'.toNat ∧ h2 = '5'.toNat) ∧
              unhex h1 * 16 + unhex h2 ≠ ' '.toNat ∧
              shouldEscape (unhex h1 * 16 + unhex h2) .host then
            .error (.escapeErr [c, h1, h2])
          else
            match unescapeLoop mode fuel t with
            | .ok r => .ok ((unhex h1 * 16 + unhex h2) :: r)
            | .error e => .error e
        else .error (.escapeErr ((c :: rest).take 3))
      | _ => .error (.escapeErr ((c :: rest).take 3))
    else if c = '+'.toNat then
      match unescapeLoop mode fuel rest with
      | .ok r => .ok ((if mode = .queryComponent then ' '.toNat else '+'.toNat) :: r)
      | .error e => .error e
    else if (mode = .host ∨ mode = .zone) ∧ c < 128 ∧ shouldEscape c mode then
      .error (.hostErr [c])
    else
      match unescapeLoop mode fuel rest with
      | .ok r => .ok (c :: r)
      | .error e => .error e

/-- net/url unescape. -/
def unescapeGo (mode : Encoding) (s : GoStr) : Except GoError GoStr :=
  unescapeLoop mode s.length s

/-- url.QueryEscape. -/
def queryEscape (s : GoStr) : GoStr := escape s .queryComponent

/-- url.QueryUnescape. -/
def queryUnescape (s : GoStr) : Except GoError GoStr := unescapeGo .queryComponent s

/-! ## net/url: parsing -/

/-- url.Userinfo (username, password, passwordSet). -/
structure Userinfo where
  username : GoStr
  password : GoStr
  passwordSet : Bool
  deriving DecidableEq

/-- url.URL.  `opaqueData` is the field Go calls Opaque. -/
structure URL where
  scheme : GoStr
  opaqueData : GoStr
  user : Option Userinfo
  host : GoStr
  path : GoStr
  rawPath : GoStr
  omitHost : Bool
  forceQuery : Bool
  rawQuery : GoStr
  fragment : GoStr
  rawFragment : GoStr
  deriving DecidableEq

/-- The zero url.URL. -/
def emptyURL : URL := ⟨[], [], none, [], [], [], false, false, [], [], []⟩

/-- net/url validUserinfo (note that Go deliberately accepts '@' and '%' here). -/
def validUserinfo (s : GoStr) : Bool :=
  s.all fun r =>
    ('A'.toNat ≤ r ∧ r ≤ 'Z'.toNat) ∨ ('a'.toNat ≤ r ∧ r ≤ 'z'.toNat) ∨
    ('0'.toNat ≤ r ∧ r ≤ '9'.toNat) ∨
    r = '-'.toNat ∨ r = '.'.toNat ∨ r = '_'.toNat ∨ r = ':'.toNat ∨ r = '~'.toNat ∨
    r = '!'.toNat ∨ r = '$'.toNat ∨ r = '&'.toNat ∨ r = 39 ∨
    r = '('.toNat ∨ r = ')'.toNat ∨ r = '*'.toNat ∨ r = '+'.toNat ∨
    r = ','.toNat ∨ r = ';'.toNat ∨ r = '='.toNat ∨ r = '%'.toNat ∨ r = '@'.toNat

/-- net/url validOptionalPort. -/
def validOptionalPort (port : GoStr) : Bool :=
  match port with
  | [] => true
  | c :: rest => c = ':'.toNat ∧ rest.all fun b => '0'.toNat ≤ b ∧ b ≤ '9'.toNat

/-- net/url stringContainsCTLByte. -/
def containsCTLByte (s : GoStr) : Bool := s.any fun b => b < 32 ∨ b = 127

/-- net/url parseHost. -/
def parseHost (host : GoStr) : Except GoError GoStr :=
  match host.head? with
  | some c =>
    if c = '['.toNat then
      match cutLast ']'.toNat host with
      | none => .error .missingBracket
      | some (pre, post) =>
        -- pre = host[:i] (before the last ']'), post = host[i+1:]
        if ¬validOptionalPort post then .error (.badPort post)
        else
          match indexOfSub (ascii "%25") pre with
          | some zone =>
            match unescapeGo .host (pre.take zone) with
            | .error e => .error e
            | .ok host1 =>
              match unescapeGo .zone (pre.drop zone) with
              | .error e => .error e
              | .ok host2 =>
                match unescapeGo .host (']'.toNat :: post) with
                | .error e => .error e
                | .ok host3 => .ok (host1 ++ host2 ++ host3)
          | none => unescapeGo .host host
    else
      match cutLast ':'.toNat host with
      | some (_, portDigits) =>
        if ¬validOptionalPort (':'.toNat :: portDigits) then
          .error (.badPort (':'.toNat :: portDigits))
        else unescapeGo .host host
      | none => unescapeGo .host host
  | none => .ok []

/-- net/url parseAuthority: split at the last '@', validate userinfo, parse host. -/
def parseAuthority (authority : GoStr) : Except GoError (Option Userinfo × GoStr) :=
  match cutLast '@'.toNat authority with
  | none =>
    match parseHost authority with
    | .error e => .error e
    | .ok h => .ok (none, h)
  | some (userinfo, hostPart) =>
    match parseHost hostPart with
    | .error e => .error e
    | .ok host =>
      if ¬validUserinfo userinfo then .error .badUserinfo
      else if ¬containsByte ':'.toNat userinfo then
        match unescapeGo .userPassword userinfo with
        | .error e => .error e
        | .ok u => .ok (some ⟨u, [], false⟩, host)
      else
        let r := cutByte ':'.toNat userinfo
        match unescapeGo .userPassword r.1 with
        | .error e => .error e
        | .ok un =>
          match unescapeGo .userPassword r.2.1 with
          | .error e => .error e
          | .ok pw => .ok (some ⟨un, pw, true⟩, host)

/-- net/url getScheme: walk rawURL looking for "scheme:". -/
def getSchemeLoop (rawURL : GoStr) : GoStr → Nat → Except GoError (GoStr × GoStr)
  | [], _ => .ok ([], rawURL)
  | c :: t, i =>
    if ('a'.toNat ≤ c ∧ c ≤ 'z'.toNat) ∨ ('A'.toNat ≤ c ∧ c ≤ 'Z'.toNat) then
      getSchemeLoop rawURL t (i + 1)
    else if ('0'.toNat ≤ c ∧ c ≤ '9'.toNat) ∨ c = '+'.toNat ∨ c = '-'.toNat ∨ c = '.'.toNat then
      if i = 0 then .ok ([], rawURL) else getSchemeLoop rawURL t (i + 1)
    else if c = ':'.toNat then
      if i = 0 then .error .missingScheme
      else .ok (rawURL.take i, rawURL.drop (i + 1))
    else .ok ([], rawURL)

/-- net/url getScheme. -/
def getScheme (rawURL : GoStr) : Except GoError (GoStr × GoStr) :=
  getSchemeLoop rawURL rawURL 0

/-- URL.setPath: unescape, and keep RawPath only when it is non-canonical. -/
def setPath (u : URL) (p : GoStr) : Except GoError URL :=
  match unescapeGo .path p with
  | .error e => .error e
  | .ok path =>
    if escape path .path = p then .ok { u with path := path, rawPath := [] }
    else .ok { u with path := path, rawPath := p }

/-- URL.setFragment, same shape as setPath. -/
def setFragment (u : URL) (f : GoStr) : Except GoError URL :=
  match unescapeGo .fragment f with
  | .error e => .error e
  | .ok frag =>
    if escape frag .fragment = f then .ok { u with fragment := frag, rawFragment := [] }
    else .ok { u with fragment := frag, rawFragment := f }

/-- net/url parse(rawURL, viaRequest): everything before the fragment. -/
def parseURLPart (rawURL : GoStr) (viaRequest : Bool) : Except GoError URL :=
  if containsCTLByte rawURL then .error .ctlByte
  else if rawURL = [] ∧ viaRequest then .error .missingScheme
  else if rawURL = ascii "*" then .ok { emptyURL with path := ascii "*" }
  else
    match getScheme rawURL with
    | .error e => .error e
    | .ok (scheme0, rest0) =>
      let scheme := toLowerGo scheme0
      -- "?" handling: a bare trailing '?' sets ForceQuery, otherwise cut at the first '?'
      let fq : Bool := rest0.getLast? = some '?'.toNat ∧ ¬containsByte '?'.toNat rest0.dropLast
      let rest := if fq then rest0.dropLast else (cutByte '?'.toNat rest0).1
      let rawQuery := if fq then [] else (cutByte '?'.toNat rest0).2.1
      let noSlash : Bool := rest.head? ≠ some '/'.toNat
      if noSlash ∧ scheme ≠ [] then
        .ok { emptyURL with scheme := scheme, opaqueData := rest,
                            forceQuery := fq, rawQuery := rawQuery }
      else if noSlash ∧ viaRequest then .error .missingScheme
      else if noSlash ∧ containsByte ':'.toNat (cutByte '/'.toNat rest).1 then
        .error .colonSegment
      else if (scheme ≠ [] ∨ (¬viaRequest ∧ ¬(ascii "///").isPrefixOf rest)) ∧
          (ascii "//").isPrefixOf rest then
        let a0 := rest.drop 2
        let authority := match indexOfByte '/'.toNat a0 with
          | some i => a0.take i
          | none => a0
        let rest2 := match indexOfByte '/'.toNat a0 with
          | some i => a0.drop i
          | none => []
        match parseAuthority authority with
        | .error e => .error e
        | .ok (user, host) =>
          setPath { emptyURL with scheme := scheme, user := user, host := host,
                                  forceQuery := fq, rawQuery := rawQuery } rest2
      else
        let oh : Bool := scheme ≠ [] ∧ rest.head? = some '/'.toNat
        setPath { emptyURL with scheme := scheme, omitHost := oh,
                                forceQuery := fq, rawQuery := rawQuery } rest

/-- url.Parse: cut the fragment first, wrap any error in *url.Error. -/
def urlParse (rawURL : GoStr) : Except GoError URL :=
  let r := cutByte 35 rawURL
  -- 35 is '#'
  match parseURLPart r.1 false with
  | .error e => .error (.parseWrap rawURL e)
  | .ok url =>
    if r.2.1 = [] then .ok url
    else
      match setFragment url r.2.1 with
      | .error e => .error (.parseWrap rawURL e)
      | .ok u2 => .ok u2

/-! ## net/url: String -/

/-- url.Userinfo.String. -/
def userinfoString (ui : Userinfo) : GoStr :=
  escape ui.username .userPassword ++
    (if ui.passwordSet then ':'.toNat :: escape ui.password .userPassword else [])

/-- net/url validEncoded: may s appear literally in a URL in this context. -/
def validEncoded (s : GoStr) (mode : Encoding) : Bool :=
  s.all fun c =>
    c = '!'.toNat ∨ c = '$'.toNat ∨ c = '&'.toNat ∨ c = 39 ∨
    c = '('.toNat ∨ c = ')'.toNat ∨ c = '*'.toNat ∨ c = '+'.toNat ∨
    c = ','.toNat ∨ c = ';'.toNat ∨ c = '='.toNat ∨ c = ':'.toNat ∨
    c = '@'.toNat ∨ c = '['.toNat ∨ c = ']'.toNat ∨ c = '%'.toNat ∨
    ¬shouldEscape c mode

/-- URL.EscapedPath when RawPath is unusable: re-escape Path. -/
def escapedPathDefault (u : URL) : GoStr :=
  if u.path = ascii "*" then ascii "*" else escape u.path .path

/-- URL.EscapedPath. -/
def escapedPath (u : URL) : GoStr :=
  if u.rawPath ≠ [] ∧ validEncoded u.rawPath .path then
    match unescapeGo .path u.rawPath with
    | .ok p => if p = u.path then u.rawPath else escapedPathDefault u
    | .error _ => escapedPathDefault u
  else escapedPathDefault u

/-- URL.EscapedFragment. -/
def escapedFragment (u : URL) : GoStr :=
  if u.rawFragment ≠ [] ∧ validEncoded u.rawFragment .fragment then
    match unescapeGo .fragment u.rawFragment with
    | .ok f => if f = u.fragment then u.rawFragment else escape u.fragment .fragment
    | .error _ => escape u.fragment .fragment
  else escape u.fragment .fragment

/-- url.URL.String. -/
def urlString (u : URL) : GoStr :=
  let buf1 : GoStr := if u.scheme ≠ [] then u.scheme ++ [':'.toNat] else []
  let buf2 :=
    if u.opaqueData ≠ [] then buf1 ++ u.opaqueData
    else
      let authPart : GoStr :=
        if u.scheme ≠ [] ∨ u.host ≠ [] ∨ u.user.isSome then
          if u.omitHost ∧ u.host = [] ∧ u.user.isNone then []
          else
            (if u.host ≠ [] ∨ u.path ≠ [] ∨ u.user.isSome then ascii "//" else []) ++
            (match u.user with
             | some ui => userinfoString ui ++ ['@'.toNat]
             | none => []) ++
            (if u.host ≠ [] then escape u.host .host else [])
        else []
      let p := escapedPath u
      let slash : GoStr :=
        if p ≠ [] ∧ p.head? ≠ some '/'.toNat ∧ u.host ≠ [] then ['/'.toNat] else []
      let dotSlash : GoStr :=
        if buf1 ++ authPart ++ slash = [] ∧
            containsByte ':'.toNat (cutByte '/'.toNat p).1 then ascii "./"
        else []
      buf1 ++ authPart ++ slash ++ dotSlash ++ p
  buf2 ++ (if u.forceQuery ∨ u.rawQuery ≠ [] then '?'.toNat :: u.rawQuery else []) ++
    (if u.fragment ≠ [] then 35 :: escapedFragment u else [])

/-! ## net/url: Values (query strings) -/

/-- url.Values: a map from keys to lists of values, represented as an
association list in first-insertion order (keys are distinct). -/
abbrev Values := List (GoStr × List GoStr)

/-- url.Values.Add. -/
def valuesAdd (m : Values) (k : GoStr) (v : GoStr) : Values :=
  match m with
  | [] => [(k, [v])]
  | (k', vs) :: t => if k' = k then (k', vs ++ [v]) :: t else (k', vs) :: valuesAdd t k v

/-- Insertion step for sorting keys (slices.Sort in Values.Encode). -/
def insertByKey (x : GoStr × List GoStr) : Values → Values
  | [] => [x]
  | y :: t => if goStrLt y.1 x.1 then y :: insertByKey x t else x :: y :: t

/-- Sort a Values by key, bytewise lexicographic (slices.Sort in Values.Encode). -/
def sortByKey : Values → Values
  | [] => []
  | x :: t => insertByKey x (sortByKey t)

/-- Join pre-rendered k=v pairs with '&' (the buffer logic of Values.Encode). -/
def joinAmp : List GoStr → GoStr
  | [] => []
  | [x] => x
  | x :: y :: t => x ++ '&'.toNat :: joinAmp (y :: t)

/-- url.Values.Encode: keys sorted, each key/value query-escaped, joined k=v with '&'. -/
def valuesEncode (m : Values) : GoStr :=
  joinAmp ((sortByKey m).flatMap fun kv =>
    kv.2.map fun v => queryEscape kv.1 ++ '='.toNat :: queryEscape v)

/-- One iteration of url.ParseQuery's loop, acting on one '&'-separated segment. -/
def procSeg (acc : Values × Option GoError) (seg : GoStr) : Values × Option GoError :=
  if containsByte ';'.toNat seg then (acc.1, some .semicolonSeparator)
  else if seg = [] then acc
  else
    let r := cutByte '='.toNat seg
    match queryUnescape r.1 with
    | .error e1 => (acc.1, if acc.2 = none then some e1 else acc.2)
    | .ok k =>
      match queryUnescape r.2.1 with
      | .error e1 => (acc.1, if acc.2 = none then some e1 else acc.2)
      | .ok v => (valuesAdd acc.1 k v, acc.2)

/-- url.ParseQuery.  The Go source repeatedly Cuts at '&'; splitting at every
'&' first and folding is the same computation. -/
def parseQuery (query : GoStr) : Values × Option GoError :=
  (if query = [] then [] else splitByte '&'.toNat query).foldl procSeg ([], none)

/-! ## The usda package: query options -/

/-- usda.USDAQueryOptions (fields tagged url:"max,omitempty" etc.). -/
structure USDAQueryOptions where
  max : Int
  offset : Int
  sort : GoStr
  deriving DecidableEq

/-- Decimal digits, fuelled so that reduction is structural; any fuel above
the digit count gives the exact digits (most significant first). -/
def natDigitsAux : Nat → Nat → GoStr
  | 0, _ => []
  | fuel + 1, n =>
    if n < 10 then ['0'.toNat + n]
    else natDigitsAux fuel (n / 10) ++ ['0'.toNat + n % 10]

/-- Decimal digits of a natural number (strconv, most significant first). -/
def natDigits (n : Nat) : GoStr := natDigitsAux (n + 1) n

/-- strconv formatting of a Go int. -/
def itoa : Int → GoStr
  | .ofNat n => natDigits n
  | .negSucc m => '-'.toNat :: natDigits (m + 1)

/-- query.Values (go-querystring) on a *USDAQueryOptions: the three fields in
declaration order, each skipped when it holds its zero value (omitempty).
This struct can never make query.Values return an error. -/
def queryValues (o : USDAQueryOptions) : Values :=
  (if o.max = 0 then [] else [(ascii "max", [itoa o.max])]) ++
  (if o.offset = 0 then [] else [(ascii "offset", [itoa o.offset])]) ++
  (if o.sort = [] then [] else [(ascii "sort", [o.sort])])

/-- usda.addQueryOptions. -/
def addQueryOptions (pathAPI : GoStr) (opts : Option USDAQueryOptions) :
    GoStr × Option GoError :=
  match opts with
  | none => (pathAPI, none)
  | some o =>
    let v := queryValues o
    match urlParse pathAPI with
    | .error e => (pathAPI, some e)
    | .ok u => (urlString { u with rawQuery := valuesEncode v }, none)

/-! ## encoding/json: values, request parameter schemas, encoding -/

/-- A JSON value.  Numbers are exact rationals. -/
inductive Json
  | null
  | bool (b : Bool)
  | num (q : ℚ)
  | str (s : GoStr)
  | arr (xs : List Json)
  | obj (mems : List (GoStr × Json))

/-- Length a Go []string would report: nil and empty both have length 0. -/
def sliceLen : Option (List GoStr) → Nat
  | none => 0
  | some xs => xs.length

/-- JSON encoding of a Go []string: nil serialises as null. -/
def jsonOfSlice : Option (List GoStr) → Json
  | none => .null
  | some xs => .arr (xs.map .str)

/-- usda.USDAListReqParams (Lt string json:"lt,omitempty"). -/
structure USDAListReqParams where
  lt : GoStr
  deriving DecidableEq

/-- usda.USDANutrientsReqParams.  Slices are Option lists: none is Go's nil
slice.  Tags: fg,omitempty; ndbno,omitempty; nutrients (no omitempty);
subset,omitempty. -/
structure USDANutrientsReqParams where
  fg : Option (List GoStr)
  ndbno : GoStr
  nutrientsID : Option (List GoStr)
  subset : GoStr
  deriving DecidableEq

/-- usda.USDAFoodsReqParams (ndbno without omitempty, type with omitempty). -/
structure USDAFoodsReqParams where
  ndbno : Option (List GoStr)
  type' : GoStr
  deriving DecidableEq

/-- usda.USDASearchReqParams (q, ds, fg all strings with omitempty). -/
structure USDASearchReqParams where
  q : GoStr
  ds : GoStr
  fg : GoStr
  deriving DecidableEq

/-- json.Marshal of USDAListReqParams. -/
def jsonOfListParams (p : USDAListReqParams) : Json :=
  .obj (if p.lt = [] then [] else [(ascii "lt", .str p.lt)])

/-- json.Marshal of USDANutrientsReqParams: omitempty drops fg when its length
is 0 (nil or empty); nutrients is always emitted, null when nil. -/
def jsonOfNutrientsParams (p : USDANutrientsReqParams) : Json :=
  .obj ((if sliceLen p.fg = 0 then [] else [(ascii "fg", jsonOfSlice p.fg)]) ++
        (if p.ndbno = [] then [] else [(ascii "ndbno", .str p.ndbno)]) ++
        [(ascii "nutrients", jsonOfSlice p.nutrientsID)] ++
        (if p.subset = [] then [] else [(ascii "subset", .str p.subset)]))

/-- json.Marshal of USDAFoodsReqParams: ndbno always emitted, null when nil. -/
def jsonOfFoodsParams (p : USDAFoodsReqParams) : Json :=
  .obj ([(ascii "ndbno", jsonOfSlice p.ndbno)] ++
        (if p.type' = [] then [] else [(ascii "type", .str p.type')]))

/-- json.Marshal of USDASearchReqParams. -/
def jsonOfSearchParams (p : USDASearchReqParams) : Json :=
  .obj ((if p.q = [] then [] else [(ascii "q", .str p.q)]) ++
        (if p.ds = [] then [] else [(ascii "ds", .str p.ds)]) ++
        (if p.fg = [] then [] else [(ascii "fg", .str p.fg)]))

/-! ## encoding/json: decoding

json.Decoder.Decode writes into an existing value; on an
UnmarshalTypeError it records the first error, leaves the target of the
mismatched member unchanged, and keeps decoding the remaining members. -/

/-- Combine errors keeping the first (d.saveError). -/
def firstErr (a b : Option GoError) : Option GoError :=
  match a with
  | some e => some e
  | none => b

/-- Key matching for struct fields: exact, then ASCII case-insensitive. -/
def keyMatch (k tag : GoStr) : Bool := k = tag ∨ toLowerGo k = toLowerGo tag

/-- Decode into a string field: null leaves the value unchanged. -/
def decGoStr (j : Json) (cur : GoStr) : GoStr × Option GoError :=
  match j with
  | .str s => (s, none)
  | .null => (cur, none)
  | _ => (cur, some (.typeErr (ascii "string")))

/-- Decode into an int field: the number must be integral. -/
def decInt (j : Json) (cur : Int) : Int × Option GoError :=
  match j with
  | .num q => if q.den = 1 then (q.num, none) else (cur, some (.typeErr (ascii "int")))
  | .null => (cur, none)
  | _ => (cur, some (.typeErr (ascii "int")))

/-- Decode into a float64 field (number kept exactly). -/
def decRat (j : Json) (cur : ℚ) : ℚ × Option GoError :=
  match j with
  | .num q => (q, none)
  | .null => (cur, none)
  | _ => (cur, some (.typeErr (ascii "float64")))

/-- Decode into an interface{} field: any JSON value is stored as-is. -/
def decAny (j : Json) (_cur : Json) : Json × Option GoError := (j, none)

/-- Decode one element of a []string. -/
def decStrElem (j : Json) : GoStr × Option GoError :=
  match j with
  | .str s => (s, none)
  | .null => ([], none)
  | _ => ([], some (.typeErr (ascii "string")))

/-- Decode into a []string field: null sets the slice to nil; element type
errors keep the first error and leave that element at its zero value. -/
def decStrSlice (j : Json) (cur : Option (List GoStr)) :
    Option (List GoStr) × Option GoError :=
  match j with
  | .null => (none, none)
  | .arr xs =>
    let rs := xs.map decStrElem
    (some (rs.map Prod.fst), rs.foldl (fun a r => firstErr a r.2) none)
  | _ => (cur, some (.typeErr (ascii "slice")))

/-- Decode into a []interface{} field. -/
def decAnyArr (j : Json) (cur : List Json) : List Json × Option GoError :=
  match j with
  | .null => ([], none)
  | .arr xs => (xs, none)
  | _ => (cur, some (.typeErr (ascii "slice")))

/-- Decode into a slice-of-struct field with element decoder dec1 and element
zero value z.  nil and empty result slices are both modeled as []. -/
def decArr (dec1 : Json → α → α × Option GoError) (z : α) (j : Json) (cur : List α) :
    List α × Option GoError :=
  match j with
  | .null => ([], none)
  | .arr xs =>
    let rs := xs.map fun x => dec1 x z
    (rs.map Prod.fst, rs.foldl (fun a r => firstErr a r.2) none)
  | _ => (cur, some (.typeErr (ascii "slice")))

/-- One struct field for the generic object decoder. -/
structure DecField (σ : Type) where
  key : GoStr
  app : Json → σ → σ × Option GoError

/-- Decode a JSON value into a struct: objects are folded member by member
(unknown keys ignored, first error kept, decoding continues); null leaves the
struct unchanged; anything else is an UnmarshalTypeError. -/
def decodeStructVia (fields : List (DecField σ)) (j : Json) (v : σ) :
    σ × Option GoError :=
  match j with
  | .obj mems =>
    mems.foldl
      (fun acc kv =>
        match fields.find? (fun f => keyMatch kv.1 f.key) with
        | some f =>
          let r := f.app kv.2 acc.1
          (r.1, firstErr acc.2 r.2)
        | none => acc)
      (v, none)
  | .null => (v, none)
  | _ => (v, some (.typeErr (ascii "struct")))

/-! ## Response schemas (anonymous nested Go structs get named here) -/

/-- Element of USDAList.List.Item. -/
structure USDAListItem where
  offset : Int
  id : GoStr
  name : GoStr
  deriving DecidableEq

/-- The anonymous struct USDAList.List. -/
structure USDAListInner where
  lt : GoStr
  start : Int
  end' : Int
  total : Int
  sr : GoStr
  sort : GoStr
  item : List USDAListItem
  deriving DecidableEq

/-- usda.USDAList. -/
structure USDAList where
  list : USDAListInner
  deriving DecidableEq

/-- The zero USDAList (var ul USDAList). -/
def zeroUSDAList : USDAList := ⟨⟨[], 0, 0, 0, [], [], []⟩⟩

/-- Element of USDANutrientReport.Report.Groups. -/
structure NRGroup where
  id : GoStr
  description : GoStr

/-- Element of ...Foods[].Nutrients. -/
structure NRNutrient where
  nutrientID : Int
  nutrient : GoStr
  unit : GoStr
  value : GoStr
  gm : ℚ

/-- Element of USDANutrientReport.Report.Foods. -/
structure NRFood where
  ndbno : GoStr
  name : GoStr
  weight : ℚ
  measure : GoStr
  nutrients : List NRNutrient

/-- The anonymous struct USDANutrientReport.Report. -/
structure NRInner where
  sr : GoStr
  groups : List NRGroup
  subset : GoStr
  end' : Int
  start : Int
  total : Int
  foods : List NRFood

/-- usda.USDANutrientReport. -/
structure USDANutrientReport where
  report : NRInner

/-- The zero USDANutrientReport. -/
def zeroUSDANutrientReport : USDANutrientReport := ⟨⟨[], [], [], 0, 0, 0, []⟩⟩

/-- The struct ...Food.Desc of USDAFoodsReport. -/
structure FRDesc where
  ndbno : GoStr
  name : GoStr
  sd : GoStr
  fg : GoStr
  sn : GoStr
  cn : GoStr
  manu : GoStr
  nf : ℚ
  cf : ℚ
  ff : ℚ
  pf : ℚ
  r : GoStr
  rd : GoStr
  ds : GoStr
  ru : GoStr

/-- The zero FRDesc. -/
def zeroFRDesc : FRDesc := ⟨[], [], [], [], [], [], [], 0, 0, 0, 0, [], [], [], []⟩

/-- Element of ...Nutrients[].Measures (interface{} fields hold the raw Json). -/
structure FRMeasure where
  label : GoStr
  eqv : ℚ
  eunit : GoStr
  qty : ℚ
  value : Json

/-- Element of ...Food.Nutrients. -/
structure FRNutrient where
  nutrientID : Json
  name : GoStr
  group : GoStr
  unit : GoStr
  value : Json
  derivation : GoStr
  sourcecode : Json
  dp : Json
  se : GoStr
  measures : List FRMeasure

/-- The zero FRNutrient. -/
def zeroFRNutrient : FRNutrient := ⟨.null, [], [], [], .null, [], .null, .null, [], []⟩

/-- Element of ...Food.Sources. -/
structure FRSource where
  id : Int
  title : GoStr
  authors : GoStr
  vol : GoStr
  iss : GoStr
  year : GoStr

/-- The anonymous struct Foods[].Food of USDAFoodsReport. -/
structure FRFood where
  sr : GoStr
  type' : GoStr
  desc : FRDesc
  nutrients : List FRNutrient
  sources : List FRSource
  footnotes : List Json
  langual : List Json

/-- The zero FRFood. -/
def zeroFRFood : FRFood := ⟨[], [], zeroFRDesc, [], [], [], []⟩

/-- Element of USDAFoodsReport.Foods. -/
structure FREntry where
  food : FRFood
  error : GoStr

/-- usda.USDAFoodsReport. -/
structure USDAFoodsReport where
  foods : List FREntry
  count : Int
  notfound : Int
  api : ℚ

/-- The zero USDAFoodsReport. -/
def zeroUSDAFoodsReport : USDAFoodsReport := ⟨[], 0, 0, 0⟩

/-- Element of USDASearch.List.Item. -/
structure SearchItem where
  offset : Int
  group : GoStr
  name : GoStr
  ndbno : GoStr
  ds : GoStr
  manu : GoStr

/-- The anonymous struct USDASearch.List. -/
structure SearchInner where
  q : GoStr
  sr : GoStr
  ds : GoStr
  start : Int
  end' : Int
  total : Int
  group : GoStr
  sort : GoStr
  item : List SearchItem

/-- usda.USDASearch. -/
structure USDASearch where
  list : SearchInner

/-- The zero USDASearch. -/
def zeroUSDASearch : USDASearch := ⟨⟨[], [], [], 0, 0, 0, [], [], []⟩⟩

/-! ## Response decoders (json.Decoder.Decode into each response type) -/

/-- Decode one USDAListItem. -/
def decodeUSDAListItem : Json → USDAListItem → USDAListItem × Option GoError :=
  decodeStructVia
    [⟨ascii "offset", fun j v => let r := decInt j v.offset; ({ v with offset := r.1 }, r.2)⟩,
     ⟨ascii "id", fun j v => let r := decGoStr j v.id; ({ v with id := r.1 }, r.2)⟩,
     ⟨ascii "name", fun j v => let r := decGoStr j v.name; ({ v with name := r.1 }, r.2)⟩]

/-- Decode USDAList.List. -/
def decodeUSDAListInner : Json → USDAListInner → USDAListInner × Option GoError :=
  decodeStructVia
    [⟨ascii "lt", fun j v => let r := decGoStr j v.lt; ({ v with lt := r.1 }, r.2)⟩,
     ⟨ascii "start", fun j v => let r := decInt j v.start; ({ v with start := r.1 }, r.2)⟩,
     ⟨ascii "end", fun j v => let r := decInt j v.end'; ({ v with end' := r.1 }, r.2)⟩,
     ⟨ascii "total", fun j v => let r := decInt j v.total; ({ v with total := r.1 }, r.2)⟩,
     ⟨ascii "sr", fun j v => let r := decGoStr j v.sr; ({ v with sr := r.1 }, r.2)⟩,
     ⟨ascii "sort", fun j v => let r := decGoStr j v.sort; ({ v with sort := r.1 }, r.2)⟩,
     ⟨ascii "item", fun j v =>
        let r := decArr decodeUSDAListItem ⟨0, [], []⟩ j v.item
        ({ v with item := r.1 }, r.2)⟩]

/-- Decode a USDAList. -/
def decodeUSDAList : Json → USDAList → USDAList × Option GoError :=
  decodeStructVia
    [⟨ascii "list", fun j v =>
        let r := decodeUSDAListInner j v.list
        ({ v with list := r.1 }, r.2)⟩]

/-- Decode one NRGroup. -/
def decodeNRGroup : Json → NRGroup → NRGroup × Option GoError :=
  decodeStructVia
    [⟨ascii "id", fun j v => let r := decGoStr j v.id; ({ v with id := r.1 }, r.2)⟩,
     ⟨ascii "description", fun j v =>
        let r := decGoStr j v.description; ({ v with description := r.1 }, r.2)⟩]

/-- Decode one NRNutrient. -/
def decodeNRNutrient : Json → NRNutrient → NRNutrient × Option GoError :=
  decodeStructVia
    [⟨ascii "nutrient_id", fun j v =>
        let r := decInt j v.nutrientID; ({ v with nutrientID := r.1 }, r.2)⟩,
     ⟨ascii "nutrient", fun j v =>
        let r := decGoStr j v.nutrient; ({ v with nutrient := r.1 }, r.2)⟩,
     ⟨ascii "unit", fun j v => let r := decGoStr j v.unit; ({ v with unit := r.1 }, r.2)⟩,
     ⟨ascii "value", fun j v => let r := decGoStr j v.value; ({ v with value := r.1 }, r.2)⟩,
     ⟨ascii "gm", fun j v => let r := decRat j v.gm; ({ v with gm := r.1 }, r.2)⟩]

/-- Decode one NRFood. -/
def decodeNRFood : Json → NRFood → NRFood × Option GoError :=
  decodeStructVia
    [⟨ascii "ndbno", fun j v => let r := decGoStr j v.ndbno; ({ v with ndbno := r.1 }, r.2)⟩,
     ⟨ascii "name", fun j v => let r := decGoStr j v.name; ({ v with name := r.1 }, r.2)⟩,
     ⟨ascii "weight", fun j v => let r := decRat j v.weight; ({ v with weight := r.1 }, r.2)⟩,
     ⟨ascii "measure", fun j v =>
        let r := decGoStr j v.measure; ({ v with measure := r.1 }, r.2)⟩,
     ⟨ascii "nutrients", fun j v =>
        let r := decArr decodeNRNutrient ⟨0, [], [], [], 0⟩ j v.nutrients
        ({ v with nutrients := r.1 }, r.2)⟩]

/-- Decode USDANutrientReport.Report. -/
def decodeNRInner : Json → NRInner → NRInner × Option GoError :=
  decodeStructVia
    [⟨ascii "sr", fun j v => let r := decGoStr j v.sr; ({ v with sr := r.1 }, r.2)⟩,
     ⟨ascii "groups", fun j v =>
        let r := decArr decodeNRGroup ⟨[], []⟩ j v.groups
        ({ v with groups := r.1 }, r.2)⟩,
     ⟨ascii "subset", fun j v => let r := decGoStr j v.subset; ({ v with subset := r.1 }, r.2)⟩,
     ⟨ascii "end", fun j v => let r := decInt j v.end'; ({ v with end' := r.1 }, r.2)⟩,
     ⟨ascii "start", fun j v => let r := decInt j v.start; ({ v with start := r.1 }, r.2)⟩,
     ⟨ascii "total", fun j v => let r := decInt j v.total; ({ v with total := r.1 }, r.2)⟩,
     ⟨ascii "foods", fun j v =>
        let r := decArr decodeNRFood ⟨[], [], 0, [], []⟩ j v.foods
        ({ v with foods := r.1 }, r.2)⟩]

/-- Decode a USDANutrientReport. -/
def decodeUSDANutrientReport : Json → USDANutrientReport → USDANutrientReport × Option GoError :=
  decodeStructVia
    [⟨ascii "report", fun j v =>
        let r := decodeNRInner j v.report
        ({ v with report := r.1 }, r.2)⟩]

/-- Decode ...Food.Desc. -/
def decodeFRDesc : Json → FRDesc → FRDesc × Option GoError :=
  decodeStructVia
    [⟨ascii "ndbno", fun j v => let r := decGoStr j v.ndbno; ({ v with ndbno := r.1 }, r.2)⟩,
     ⟨ascii "name", fun j v => let r := decGoStr j v.name; ({ v with name := r.1 }, r.2)⟩,
     ⟨ascii "sd", fun j v => let r := decGoStr j v.sd; ({ v with sd := r.1 }, r.2)⟩,
     ⟨ascii "fg", fun j v => let r := decGoStr j v.fg; ({ v with fg := r.1 }, r.2)⟩,
     ⟨ascii "sn", fun j v => let r := decGoStr j v.sn; ({ v with sn := r.1 }, r.2)⟩,
     ⟨ascii "cn", fun j v => let r := decGoStr j v.cn; ({ v with cn := r.1 }, r.2)⟩,
     ⟨ascii "manu", fun j v => let r := decGoStr j v.manu; ({ v with manu := r.1 }, r.2)⟩,
     ⟨ascii "nf", fun j v => let r := decRat j v.nf; ({ v with nf := r.1 }, r.2)⟩,
     ⟨ascii "cf", fun j v => let r := decRat j v.cf; ({ v with cf := r.1 }, r.2)⟩,
     ⟨ascii "ff", fun j v => let r := decRat j v.ff; ({ v with ff := r.1 }, r.2)⟩,
     ⟨ascii "pf", fun j v => let r := decRat j v.pf; ({ v with pf := r.1 }, r.2)⟩,
     ⟨ascii "r", fun j v => let r := decGoStr j v.r; ({ v with r := r.1 }, r.2)⟩,
     ⟨ascii "rd", fun j v => let r := decGoStr j v.rd; ({ v with rd := r.1 }, r.2)⟩,
     ⟨ascii "ds", fun j v => let r := decGoStr j v.ds; ({ v with ds := r.1 }, r.2)⟩,
     ⟨ascii "ru", fun j v => let r := decGoStr j v.ru; ({ v with ru := r.1 }, r.2)⟩]

/-- Decode one FRMeasure. -/
def decodeFRMeasure : Json → FRMeasure → FRMeasure × Option GoError :=
  decodeStructVia
    [⟨ascii "label", fun j v => let r := decGoStr j v.label; ({ v with label := r.1 }, r.2)⟩,
     ⟨ascii "eqv", fun j v => let r := decRat j v.eqv; ({ v with eqv := r.1 }, r.2)⟩,
     ⟨ascii "eunit", fun j v => let r := decGoStr j v.eunit; ({ v with eunit := r.1 }, r.2)⟩,
     ⟨ascii "qty", fun j v => let r := decRat j v.qty; ({ v with qty := r.1 }, r.2)⟩,
     ⟨ascii "value", fun j v => let r := decAny j v.value; ({ v with value := r.1 }, r.2)⟩]

/-- Decode one FRNutrient. -/
def decodeFRNutrient : Json → FRNutrient → FRNutrient × Option GoError :=
  decodeStructVia
    [⟨ascii "nutrient_id", fun j v =>
        let r := decAny j v.nutrientID; ({ v with nutrientID := r.1 }, r.2)⟩,
     ⟨ascii "name", fun j v => let r := decGoStr j v.name; ({ v with name := r.1 }, r.2)⟩,
     ⟨ascii "group", fun j v => let r := decGoStr j v.group; ({ v with group := r.1 }, r.2)⟩,
     ⟨ascii "unit", fun j v => let r := decGoStr j v.unit; ({ v with unit := r.1 }, r.2)⟩,
     ⟨ascii "value", fun j v => let r := decAny j v.value; ({ v with value := r.1 }, r.2)⟩,
     ⟨ascii "derivation", fun j v =>
        let r := decGoStr j v.derivation; ({ v with derivation := r.1 }, r.2)⟩,
     ⟨ascii "sourcecode", fun j v =>
        let r := decAny j v.sourcecode; ({ v with sourcecode := r.1 }, r.2)⟩,
     ⟨ascii "dp", fun j v => let r := decAny j v.dp; ({ v with dp := r.1 }, r.2)⟩,
     ⟨ascii "se", fun j v => let r := decGoStr j v.se; ({ v with se := r.1 }, r.2)⟩,
     ⟨ascii "measures", fun j v =>
        let r := decArr decodeFRMeasure ⟨[], 0, [], 0, .null⟩ j v.measures
        ({ v with measures := r.1 }, r.2)⟩]

/-- Decode one FRSource. -/
def decodeFRSource : Json → FRSource → FRSource × Option GoError :=
  decodeStructVia
    [⟨ascii "id", fun j v => let r := decInt j v.id; ({ v with id := r.1 }, r.2)⟩,
     ⟨ascii "title", fun j v => let r := decGoStr j v.title; ({ v with title := r.1 }, r.2)⟩,
     ⟨ascii "authors", fun j v =>
        let r := decGoStr j v.authors; ({ v with authors := r.1 }, r.2)⟩,
     ⟨ascii "vol", fun j v => let r := decGoStr j v.vol; ({ v with vol := r.1 }, r.2)⟩,
     ⟨ascii "iss", fun j v => let r := decGoStr j v.iss; ({ v with iss := r.1 }, r.2)⟩,
     ⟨ascii "year", fun j v => let r := decGoStr j v.year; ({ v with year := r.1 }, r.2)⟩]

/-- Decode Foods[].Food. -/
def decodeFRFood : Json → FRFood → FRFood × Option GoError :=
  decodeStructVia
    [⟨ascii "sr", fun j v => let r := decGoStr j v.sr; ({ v with sr := r.1 }, r.2)⟩,
     ⟨ascii "type", fun j v => let r := decGoStr j v.type'; ({ v with type' := r.1 }, r.2)⟩,
     ⟨ascii "desc", fun j v => let r := decodeFRDesc j v.desc; ({ v with desc := r.1 }, r.2)⟩,
     ⟨ascii "nutrients", fun j v =>
        let r := decArr decodeFRNutrient zeroFRNutrient j v.nutrients
        ({ v with nutrients := r.1 }, r.2)⟩,
     ⟨ascii "sources", fun j v =>
        let r := decArr decodeFRSource ⟨0, [], [], [], [], []⟩ j v.sources
        ({ v with sources := r.1 }, r.2)⟩,
     ⟨ascii "footnotes", fun j v =>
        let r := decAnyArr j v.footnotes; ({ v with footnotes := r.1 }, r.2)⟩,
     ⟨ascii "langual", fun j v =>
        let r := decAnyArr j v.langual; ({ v with langual := r.1 }, r.2)⟩]

/-- Decode one FREntry. -/
def decodeFREntry : Json → FREntry → FREntry × Option GoError :=
  decodeStructVia
    [⟨ascii "food", fun j v => let r := decodeFRFood j v.food; ({ v with food := r.1 }, r.2)⟩,
     ⟨ascii "error", fun j v => let r := decGoStr j v.error; ({ v with error := r.1 }, r.2)⟩]

/-- Decode a USDAFoodsReport. -/
def decodeUSDAFoodsReport : Json → USDAFoodsReport → USDAFoodsReport × Option GoError :=
  decodeStructVia
    [⟨ascii "foods", fun j v =>
        let r := decArr decodeFREntry ⟨zeroFRFood, []⟩ j v.foods
        ({ v with foods := r.1 }, r.2)⟩,
     ⟨ascii "count", fun j v => let r := decInt j v.count; ({ v with count := r.1 }, r.2)⟩,
     ⟨ascii "notfound", fun j v =>
        let r := decInt j v.notfound; ({ v with notfound := r.1 }, r.2)⟩,
     ⟨ascii "api", fun j v => let r := decRat j v.api; ({ v with api := r.1 }, r.2)⟩]

/-- Decode one SearchItem. -/
def decodeSearchItem : Json → SearchItem → SearchItem × Option GoError :=
  decodeStructVia
    [⟨ascii "offset", fun j v => let r := decInt j v.offset; ({ v with offset := r.1 }, r.2)⟩,
     ⟨ascii "group", fun j v => let r := decGoStr j v.group; ({ v with group := r.1 }, r.2)⟩,
     ⟨ascii "name", fun j v => let r := decGoStr j v.name; ({ v with name := r.1 }, r.2)⟩,
     ⟨ascii "ndbno", fun j v => let r := decGoStr j v.ndbno; ({ v with ndbno := r.1 }, r.2)⟩,
     ⟨ascii "ds", fun j v => let r := decGoStr j v.ds; ({ v with ds := r.1 }, r.2)⟩,
     ⟨ascii "manu", fun j v => let r := decGoStr j v.manu; ({ v with manu := r.1 }, r.2)⟩]

/-- Decode USDASearch.List. -/
def decodeSearchInner : Json → SearchInner → SearchInner × Option GoError :=
  decodeStructVia
    [⟨ascii "q", fun j v => let r := decGoStr j v.q; ({ v with q := r.1 }, r.2)⟩,
     ⟨ascii "sr", fun j v => let r := decGoStr j v.sr; ({ v with sr := r.1 }, r.2)⟩,
     ⟨ascii "ds", fun j v => let r := decGoStr j v.ds; ({ v with ds := r.1 }, r.2)⟩,
     ⟨ascii "start", fun j v => let r := decInt j v.start; ({ v with start := r.1 }, r.2)⟩,
     ⟨ascii "end", fun j v => let r := decInt j v.end'; ({ v with end' := r.1 }, r.2)⟩,
     ⟨ascii "total", fun j v => let r := decInt j v.total; ({ v with total := r.1 }, r.2)⟩,
     ⟨ascii "group", fun j v => let r := decGoStr j v.group; ({ v with group := r.1 }, r.2)⟩,
     ⟨ascii "sort", fun j v => let r := decGoStr j v.sort; ({ v with sort := r.1 }, r.2)⟩,
     ⟨ascii "item", fun j v =>
        let r := decArr decodeSearchItem ⟨0, [], [], [], [], []⟩ j v.item
        ({ v with item := r.1 }, r.2)⟩]

/-- Decode a USDASearch. -/
def decodeUSDASearch : Json → USDASearch → USDASearch × Option GoError :=
  decodeStructVia
    [⟨ascii "list", fun j v =>
        let r := decodeSearchInner j v.list
        ({ v with list := r.1 }, r.2)⟩]

/-! ## Request-parameter decoders (for the round-trip property) -/

/-- Decode a USDAListReqParams. -/
def decodeListParams : Json → USDAListReqParams → USDAListReqParams × Option GoError :=
  decodeStructVia
    [⟨ascii "lt", fun j v => let r := decGoStr j v.lt; ({ v with lt := r.1 }, r.2)⟩]

/-- Decode a USDANutrientsReqParams. -/
def decodeNutrientsParams :
    Json → USDANutrientsReqParams → USDANutrientsReqParams × Option GoError :=
  decodeStructVia
    [⟨ascii "fg", fun j v => let r := decStrSlice j v.fg; ({ v with fg := r.1 }, r.2)⟩,
     ⟨ascii "ndbno", fun j v => let r := decGoStr j v.ndbno; ({ v with ndbno := r.1 }, r.2)⟩,
     ⟨ascii "nutrients", fun j v =>
        let r := decStrSlice j v.nutrientsID; ({ v with nutrientsID := r.1 }, r.2)⟩,
     ⟨ascii "subset", fun j v =>
        let r := decGoStr j v.subset; ({ v with subset := r.1 }, r.2)⟩]

/-- Decode a USDAFoodsReqParams. -/
def decodeFoodsParams : Json → USDAFoodsReqParams → USDAFoodsReqParams × Option GoError :=
  decodeStructVia
    [⟨ascii "ndbno", fun j v => let r := decStrSlice j v.ndbno; ({ v with ndbno := r.1 }, r.2)⟩,
     ⟨ascii "type", fun j v => let r := decGoStr j v.type'; ({ v with type' := r.1 }, r.2)⟩]

/-- Decode a USDASearchReqParams. -/
def decodeSearchParams : Json → USDASearchReqParams → USDASearchReqParams × Option GoError :=
  decodeStructVia
    [⟨ascii "q", fun j v => let r := decGoStr j v.q; ({ v with q := r.1 }, r.2)⟩,
     ⟨ascii "ds", fun j v => let r := decGoStr j v.ds; ({ v with ds := r.1 }, r.2)⟩,
     ⟨ascii "fg", fun j v => let r := decGoStr j v.fg; ({ v with fg := r.1 }, r.2)⟩]

/-! ## Client, request construction and dispatch -/

/-- The usda entryPointURL constant. -/
def entryPointURL : GoStr := ascii "api.nal.usda.gov/ndb/"

/-- usda.USDAclient.  The injected *http.Client carries no data the claims
depend on; the transport's behaviour is passed to each call explicitly. -/
structure USDAclient where
  baseURL : URL
  deriving DecidableEq

/-- The raw URL string NewClient hands to url.Parse: "https://" + apiKey + "@" + entryPointURL. -/
def baseRawURL (apiKey : GoStr) : GoStr :=
  ascii "https://" ++ apiKey ++ '@'.toNat :: entryPointURL

/-- usda.NewClient.  In Go a parse failure panics; here it is the error branch. -/
def NewClient (apiKey : GoStr) : Except GoError USDAclient :=
  match urlParse (baseRawURL apiKey) with
  | .error e => .error e
  | .ok bURL => .ok ⟨bURL⟩

/-- Whether NewClient panicked for this access key. -/
def newClientPanics (apiKey : GoStr) : Bool :=
  match NewClient apiKey with
  | .error _ => true
  | .ok _ => false

/-- Whether url.Parse fails on a raw URL. -/
def urlParseFails (s : GoStr) : Bool :=
  match urlParse s with
  | .error _ => true
  | .ok _ => false

/-- An outbound request as newRequest builds it: POST method, target URL
string, Content-Type header value, and the JSON value the encoded body
parses to. -/
structure Request where
  method : GoStr
  urlStr : GoStr
  contentType : GoStr
  body : Json

/-- usda.newRequest.  finalPathURL is baseURL.String() + pathAPI;
json.NewEncoder(..).Encode cannot fail on the four fixed parameter schemas,
and http.NewRequest fails exactly when url.Parse rejects the target URL. -/
def newRequest (c : USDAclient) (pathAPI : GoStr) (body : Json) : Except GoError Request :=
  let finalPathURL := urlString c.baseURL ++ pathAPI
  match urlParse finalPathURL with
  | .error e => .error e
  | .ok _ => .ok ⟨ascii "POST", finalPathURL, ascii "application/json", body⟩

/-- The cancellation context as the dispatcher sees it: whether ctx.Done()
has fired, and what ctx.Err() reports when it has. -/
structure GoContext where
  done : Bool
  ctxErr : GoError

/-- An HTTP response from the transport: the status code and the JSON value
its body parses to (none when the body is not valid JSON). -/
structure Response where
  statusCode : Int
  body : Option Json

/-- usda.(*USDAclient).do: perform the call; on a transport error report
ctx.Err() if the context has fired, the transport error otherwise; on
success decode the body into v (the select with a default case is
deterministic). -/
def doCall (ctx : GoContext) (tr : Except GoError Response)
    (dec : Json → α → α × Option GoError) (v : α) :
    Option Response × α × Option GoError :=
  match tr with
  | .error err => (none, v, some (if ctx.done then ctx.ctxErr else err))
  | .ok resp =>
    match resp.body with
    | some j =>
      let r := dec j v
      (some resp, r.1, r.2)
    | none => (some resp, v, some .invalidJSON)

/-! ## The four operation clients and the façade -/

/-- The request GetList builds (addQueryOptions on "list", then newRequest). -/
def getListReq (c : USDAclient) (params : USDAListReqParams)
    (opts : Option USDAQueryOptions) : Except GoError Request :=
  let r := addQueryOptions (ascii "list") opts
  match r.2 with
  | some e => .error e
  | none => newRequest c r.1 (jsonOfListParams params)

/-- usda.GetList.  tr is what the injected transport returns for this call. -/
def GetList (c : USDAclient) (ctx : GoContext) (params : USDAListReqParams)
    (opts : Option USDAQueryOptions) (tr : Except GoError Response) :
    USDAList × Option GoError :=
  match getListReq c params opts with
  | .error e => (zeroUSDAList, some e)
  | .ok _ =>
    let r := doCall ctx tr decodeUSDAList zeroUSDAList
    (r.2.1, r.2.2)

/-- The request GetUSDANutrientReport builds. -/
def getNutrientReportReq (c : USDAclient) (params : USDANutrientsReqParams)
    (opts : Option USDAQueryOptions) : Except GoError Request :=
  let r := addQueryOptions (ascii "nutrients") opts
  match r.2 with
  | some e => .error e
  | none => newRequest c r.1 (jsonOfNutrientsParams params)

/-- usda.GetUSDANutrientReport. -/
def GetUSDANutrientReport (c : USDAclient) (ctx : GoContext)
    (params : USDANutrientsReqParams) (opts : Option USDAQueryOptions)
    (tr : Except GoError Response) : USDANutrientReport × Option GoError :=
  match getNutrientReportReq c params opts with
  | .error e => (zeroUSDANutrientReport, some e)
  | .ok _ =>
    let r := doCall ctx tr decodeUSDANutrientReport zeroUSDANutrientReport
    (r.2.1, r.2.2)

/-- The request GetUSDAFoodsReportV2 builds (fixed path, no query options). -/
def getFoodsReportV2Req (c : USDAclient) (params : USDAFoodsReqParams) :
    Except GoError Request :=
  newRequest c (ascii "V2/reports") (jsonOfFoodsParams params)

/-- usda.GetUSDAFoodsReportV2. -/
def GetUSDAFoodsReportV2 (c : USDAclient) (ctx : GoContext)
    (params : USDAFoodsReqParams) (tr : Except GoError Response) :
    USDAFoodsReport × Option GoError :=
  match getFoodsReportV2Req c params with
  | .error e => (zeroUSDAFoodsReport, some e)
  | .ok _ =>
    let r := doCall ctx tr decodeUSDAFoodsReport zeroUSDAFoodsReport
    (r.2.1, r.2.2)

/-- The request GetUSDASearch builds. -/
def getSearchReq (c : USDAclient) (params : USDASearchReqParams)
    (opts : Option USDAQueryOptions) : Except GoError Request :=
  let r := addQueryOptions (ascii "search") opts
  match r.2 with
  | some e => .error e
  | none => newRequest c r.1 (jsonOfSearchParams params)

/-- usda.GetUSDASearch. -/
def GetUSDASearch (c : USDAclient) (ctx : GoContext) (params : USDASearchReqParams)
    (opts : Option USDAQueryOptions) (tr : Except GoError Response) :
    USDASearch × Option GoError :=
  match getSearchReq c params opts with
  | .error e => (zeroUSDASearch, some e)
  | .ok _ =>
    let r := doCall ctx tr decodeUSDASearch zeroUSDASearch
    (r.2.1, r.2.2)

/-- Façade GetFoodNameSearch: params {Q: name}, opts {Max: 100, Sort: "n"}. -/
def GetFoodNameSearch (c : USDAclient) (ctx : GoContext) (name : GoStr)
    (tr : Except GoError Response) : USDASearch × Option GoError :=
  GetUSDASearch c ctx ⟨name, [], []⟩ (some ⟨100, 0, ascii "n"⟩) tr

/-- The request GetFoodNameSearch builds. -/
def getFoodNameSearchReq (c : USDAclient) (name : GoStr) : Except GoError Request :=
  getSearchReq c ⟨name, [], []⟩ (some ⟨100, 0, ascii "n"⟩)

/-- Façade GetBasicFoodReport: params {Ndbno: [ndbno], Type: "b"}. -/
def GetBasicFoodReport (c : USDAclient) (ctx : GoContext) (ndbno : GoStr)
    (tr : Except GoError Response) : USDAFoodsReport × Option GoError :=
  GetUSDAFoodsReportV2 c ctx ⟨some [ndbno], ascii "b"⟩ tr

/-- The request GetBasicFoodReport builds. -/
def getBasicFoodReportReq (c : USDAclient) (ndbno : GoStr) : Except GoError Request :=
  getFoodsReportV2Req c ⟨some [ndbno], ascii "b"⟩

/-- Façade GetListByType. -/
def GetListByType (c : USDAclient) (ctx : GoContext) (listType : GoStr)
    (tr : Except GoError Response) : USDAList × Option GoError :=
  GetList c ctx ⟨listType⟩ (some ⟨1500, 0, ascii "id"⟩) tr

/-- Façade GetNutrientsReport. -/
def GetNutrientsReport (c : USDAclient) (ctx : GoContext)
    (tr : Except GoError Response) : USDANutrientReport × Option GoError :=
  GetUSDANutrientReport c ctx
    ⟨some [ascii "0300"], [], some [ascii "306", ascii "204"], []⟩
    (some ⟨10, 0, ascii "c"⟩) tr

/-- Façade GetFoodNutrientsReport. -/
def GetFoodNutrientsReport (c : USDAclient) (ctx : GoContext) (ndbno : GoStr)
    (tr : Except GoError Response) : USDANutrientReport × Option GoError :=
  GetUSDANutrientReport c ctx ⟨none, ndbno, some [ascii "306", ascii "204"], []⟩
    (some ⟨100, 0, ascii "c"⟩) tr

/-! ## Shared concrete values used by witnesses and counterexamples -/

/-- The base URL url.Parse produces for access key "demo123". -/
def demoBase : URL :=
  ⟨ascii "https", [], some ⟨ascii "demo123", [], false⟩, ascii "api.nal.usda.gov",
   ascii "/ndb/", [], false, false, [], [], []⟩

/-- A client constructed with access key "demo123". -/
def demoClient : USDAclient := ⟨demoBase⟩

/-- A context that has not fired. -/
def liveCtx : GoContext := ⟨false, .canceled⟩

/-- A client whose base URL renders with a raw control byte in the query
component, so that newRequest (http.NewRequest's url.Parse) fails. -/
def badClient : USDAclient := ⟨⟨[], [], none, [], [], [], false, false, [9], [], []⟩⟩

/-- The member keys of a JSON object (empty for non-objects). -/
def objKeys : Json → List GoStr
  | .obj mems => mems.map Prod.fst
  | _ => []

/-- The first member of a JSON object with the given key. -/
def objLookup (k : GoStr) : Json → Option Json
  | .obj mems => (mems.find? fun kv => decide (kv.1 = k)).map Prod.snd
  | _ => none

/-! # Theorems -/

/-- C4: when the transport call fails and the cancellation context has
already fired, the dispatcher returns the context's cancellation error
rather than the transport's error; when the context has not fired, the raw
transport error is returned. -/
theorem doCall_cancellation {α : Type} (ctx : GoContext) (e : GoError)
    (dec : Json → α → α × Option GoError) (v : α) :
    (ctx.done = true → doCall ctx (.error e) dec v = (none, v, some ctx.ctxErr)) ∧
    (ctx.done = false → doCall ctx (.error e) dec v = (none, v, some e)) := by
  constructor <;> intro h <;> simp [doCall, h]

/-- Witness for C4 at a fired and an unfired context. -/
theorem doCall_cancellation_witness :
    doCall ⟨true, .canceled⟩ (.error (.transportFailure [])) decodeUSDAList zeroUSDAList
      = (none, zeroUSDAList, some .canceled) ∧
    doCall ⟨false, .canceled⟩ (.error (.transportFailure [])) decodeUSDAList zeroUSDAList
      = (none, zeroUSDAList, some (.transportFailure [])) :=
  ⟨(doCall_cancellation ⟨true, .canceled⟩ (.transportFailure [])
      decodeUSDAList zeroUSDAList).1 rfl,
   (doCall_cancellation ⟨false, .canceled⟩ (.transportFailure [])
      decodeUSDAList zeroUSDAList).2 rfl⟩

/-- C6 counterexample: the access key "@" does not make construction fail.
url.Parse splits the authority at the last '@' and validUserinfo accepts
'@' inside userinfo, so url.Parse succeeds and NewClient does not panic. -/
theorem newClient_key_at_cex : newClientPanics (ascii "@") = false := by decide

/-- C6 (amended): construction fails fatally exactly when url.Parse rejects
https://{key}@api.nal.usda.gov/ndb/; a key containing a space (invalid in
userinfo) does fail fatally, but the key "@" does not. -/
theorem newClient_fatal_iff :
    (∀ apiKey : GoStr, newClientPanics apiKey = urlParseFails (baseRawURL apiKey)) ∧
    newClientPanics (ascii " ") = true := by
  constructor
  · intro k
    unfold newClientPanics NewClient urlParseFails
    cases urlParse (baseRawURL k) <;> rfl
  · decide

/-- C8: the basic-food-report façade at food id "01009" targets the fixed
path V2/reports, which carries no query string, with body
{"ndbno":["01009"],"type":"b"}. -/
theorem getBasicFoodReport_request (c : USDAclient) (req : Request)
    (h : getBasicFoodReportReq c (ascii "01009") = .ok req) :
    req.urlStr = urlString c.baseURL ++ ascii "V2/reports" ∧
    containsByte '?'.toNat (ascii "V2/reports") = false ∧
    req.body = .obj [(ascii "ndbno", .arr [.str (ascii "01009")]),
                     (ascii "type", .str (ascii "b"))] := by
  simp only [getBasicFoodReportReq, getFoodsReportV2Req, newRequest] at h
  rcases hu : urlParse (urlString c.baseURL ++ ascii "V2/reports") with e | u <;> rw [hu] at h
  · exact absurd h (by simp)
  · cases h
    exact ⟨rfl, by decide, rfl⟩

/-- Witness for C8 with the client built from access key "demo123". -/
theorem getBasicFoodReport_request_witness :
    ascii "https://demo123@api.nal.usda.gov/ndb/V2/reports" =
        urlString demoClient.baseURL ++ ascii "V2/reports" ∧
    containsByte '?'.toNat (ascii "V2/reports") = false ∧
    Json.obj [(ascii "ndbno", .arr [.str (ascii "01009")]),
              (ascii "type", .str (ascii "b"))] =
      .obj [(ascii "ndbno", .arr [.str (ascii "01009")]),
            (ascii "type", .str (ascii "b"))] :=
  getBasicFoodReport_request demoClient
    ⟨ascii "POST", ascii "https://demo123@api.nal.usda.gov/ndb/V2/reports",
     ascii "application/json",
     .obj [(ascii "ndbno", .arr [.str (ascii "01009")]),
           (ascii "type", .str (ascii "b"))]⟩ rfl

/-- C9: the dispatcher never inspects the HTTP status code: whenever the
transport returns a response without error, GetList's outcome is the same
for any two status codes, and a body that is valid JSON is decoded into the
destination regardless of status. -/
theorem getList_status_blind (c : USDAclient) (ctx : GoContext)
    (params : USDAListReqParams) (opts : Option USDAQueryOptions)
    (s1 s2 : Int) (b : Option Json) (r : Request) (j : Json)
    (h : getListReq c params opts = .ok r) :
    GetList c ctx params opts (.ok ⟨s1, b⟩) = GetList c ctx params opts (.ok ⟨s2, b⟩) ∧
    GetList c ctx params opts (.ok ⟨s1, some j⟩) = decodeUSDAList j zeroUSDAList := by
  unfold GetList
  rw [h]
  cases b <;> simp [doCall]

/-- Witness for C9: a 404 response with a well-formed body yields a
populated value and no error. -/
theorem getList_status_blind_witness :
    GetList demoClient liveCtx ⟨[]⟩ none
        (.ok ⟨404, some (.obj [(ascii "list", .obj [(ascii "lt", .str (ascii "f"))])])⟩)
      = (⟨⟨ascii "f", 0, 0, 0, [], [], []⟩⟩, none) :=
  Eq.trans
    ((getList_status_blind demoClient liveCtx ⟨[]⟩ none 404 200
        (some (.obj [(ascii "list", .obj [(ascii "lt", .str (ascii "f"))])]))
        ⟨ascii "POST", ascii "https://demo123@api.nal.usda.gov/ndb/list",
         ascii "application/json", .obj []⟩
        (.obj [(ascii "list", .obj [(ascii "lt", .str (ascii "f"))])]) rfl).2)
    rfl

set_option maxHeartbeats 4000000 in
/-- C1 counterexample: with access key "demo123" and query "apple" the
name-search façade builds a request whose path ends in search?max=100&sort=n,
not in the claimed search?max=100&offset=0&sort=n: the url tag
offset,omitempty drops the zero offset from the query string. -/
theorem getFoodNameSearch_request_cex :
    ((NewClient (ascii "demo123")).map fun c => getFoodNameSearchReq c (ascii "apple")) =
      .ok (.ok ⟨ascii "POST",
        ascii "https://demo123@api.nal.usda.gov/ndb/search?max=100&sort=n",
        ascii "application/json", .obj [(ascii "q", .str (ascii "apple"))]⟩) ∧
    (ascii "search?max=100&offset=0&sort=n").isSuffixOf
      (ascii "https://demo123@api.nal.usda.gov/ndb/search?max=100&sort=n") = false :=
  ⟨rfl, by decide⟩

set_option maxHeartbeats 4000000 in
/-- C1 (amended): with access key "demo123" and query "apple" the name-search
façade builds a request whose path ends in search?max=100&sort=n (the zero
offset is omitted) and whose body parses to {"q":"apple"}. -/
theorem getFoodNameSearch_request_amended :
    ((NewClient (ascii "demo123")).map fun c => getFoodNameSearchReq c (ascii "apple")) =
      .ok (.ok ⟨ascii "POST",
        ascii "https://demo123@api.nal.usda.gov/ndb/search?max=100&sort=n",
        ascii "application/json", .obj [(ascii "q", .str (ascii "apple"))]⟩) ∧
    (ascii "search?max=100&sort=n").isSuffixOf
      (ascii "https://demo123@api.nal.usda.gov/ndb/search?max=100&sort=n") = true ∧
    valuesEncode (queryValues ⟨100, 0, ascii "n"⟩) = ascii "max=100&sort=n" :=
  ⟨rfl, by decide, by decide⟩

set_option maxHeartbeats 4000000 in
/-- C7 counterexample: a decode error does not leave the zero value.  On the
body {"list":{"lt":"X","start":"bad"}} the decoder sets lt, records the type
error on start, and GetList returns the partially populated value together
with the error. -/
theorem getList_decode_partial_cex :
    GetList demoClient liveCtx ⟨[]⟩ none
        (.ok ⟨200, some (.obj [(ascii "list",
           .obj [(ascii "lt", .str (ascii "X")), (ascii "start", .str (ascii "bad"))])])⟩)
      = (⟨⟨ascii "X", 0, 0, 0, [], [], []⟩⟩, some (.typeErr (ascii "int"))) ∧
    (⟨⟨ascii "X", 0, 0, 0, [], [], []⟩⟩ : USDAList) ≠ zeroUSDAList :=
  ⟨rfl, by decide⟩

/-- C7 (amended): for every operation call, an error that arises before
response decoding (query-option encoding, request building, or the
transport call) leaves the zero response value; a JSON decode error may
leave a partially populated response. -/
theorem operations_zero_value_on_early_error (c : USDAclient) (ctx : GoContext)
    (p1 : USDAListReqParams) (p2 : USDANutrientsReqParams) (p3 : USDAFoodsReqParams)
    (p4 : USDASearchReqParams) (o : Option USDAQueryOptions)
    (e1 e2 e3 e4 e' : GoError) (tr : Except GoError Response) :
    (getListReq c p1 o = .error e1 → GetList c ctx p1 o tr = (zeroUSDAList, some e1)) ∧
    (GetList c ctx p1 o (.error e')).1 = zeroUSDAList ∧
    (getNutrientReportReq c p2 o = .error e2 →
      GetUSDANutrientReport c ctx p2 o tr = (zeroUSDANutrientReport, some e2)) ∧
    (GetUSDANutrientReport c ctx p2 o (.error e')).1 = zeroUSDANutrientReport ∧
    (getFoodsReportV2Req c p3 = .error e3 →
      GetUSDAFoodsReportV2 c ctx p3 tr = (zeroUSDAFoodsReport, some e3)) ∧
    (GetUSDAFoodsReportV2 c ctx p3 (.error e')).1 = zeroUSDAFoodsReport ∧
    (getSearchReq c p4 o = .error e4 → GetUSDASearch c ctx p4 o tr = (zeroUSDASearch, some e4)) ∧
    (GetUSDASearch c ctx p4 o (.error e')).1 = zeroUSDASearch := by
  refine ⟨fun h => ?_, ?_, fun h => ?_, ?_, fun h => ?_, ?_, fun h => ?_, ?_⟩
  · simp [GetList, h]
  · rcases hr : getListReq c p1 o with e | r <;> simp [GetList, hr, doCall]
  · simp [GetUSDANutrientReport, h]
  · rcases hr : getNutrientReportReq c p2 o with e | r <;>
      simp [GetUSDANutrientReport, hr, doCall]
  · simp [GetUSDAFoodsReportV2, h]
  · rcases hr : getFoodsReportV2Req c p3 with e | r <;>
      simp [GetUSDAFoodsReportV2, hr, doCall]
  · simp [GetUSDASearch, h]
  · rcases hr : getSearchReq c p4 o with e | r <;> simp [GetUSDASearch, hr, doCall]

set_option maxHeartbeats 1000000 in
/-- Witness for C7: a client whose base URL renders invalid makes every
request build fail with the zero value returned, and a transport error also
leaves the zero value. -/
theorem operations_zero_value_on_early_error_witness :
    GetList badClient liveCtx ⟨[]⟩ none (.error (.transportFailure []))
      = (zeroUSDAList, some (.parseWrap ('?'.toNat :: 9 :: ascii "list") .ctlByte)) ∧
    (GetList badClient liveCtx ⟨[]⟩ none (.error (.transportFailure []))).1 = zeroUSDAList ∧
    GetUSDANutrientReport badClient liveCtx ⟨none, [], none, []⟩ none
        (.error (.transportFailure []))
      = (zeroUSDANutrientReport,
         some (.parseWrap ('?'.toNat :: 9 :: ascii "nutrients") .ctlByte)) ∧
    (GetUSDANutrientReport badClient liveCtx ⟨none, [], none, []⟩ none
        (.error (.transportFailure []))).1 = zeroUSDANutrientReport ∧
    GetUSDAFoodsReportV2 badClient liveCtx ⟨none, []⟩ (.error (.transportFailure []))
      = (zeroUSDAFoodsReport,
         some (.parseWrap ('?'.toNat :: 9 :: ascii "V2/reports") .ctlByte)) ∧
    (GetUSDAFoodsReportV2 badClient liveCtx ⟨none, []⟩
        (.error (.transportFailure []))).1 = zeroUSDAFoodsReport ∧
    GetUSDASearch badClient liveCtx ⟨[], [], []⟩ none (.error (.transportFailure []))
      = (zeroUSDASearch, some (.parseWrap ('?'.toNat :: 9 :: ascii "search") .ctlByte)) ∧
    (GetUSDASearch badClient liveCtx ⟨[], [], []⟩ none
        (.error (.transportFailure []))).1 = zeroUSDASearch :=
  by
  have h := operations_zero_value_on_early_error badClient liveCtx ⟨[]⟩ ⟨none, [], none, []⟩
    ⟨none, []⟩ ⟨[], [], []⟩ none
    (.parseWrap ('?'.toNat :: 9 :: ascii "list") .ctlByte)
    (.parseWrap ('?'.toNat :: 9 :: ascii "nutrients") .ctlByte)
    (.parseWrap ('?'.toNat :: 9 :: ascii "V2/reports") .ctlByte)
    (.parseWrap ('?'.toNat :: 9 :: ascii "search") .ctlByte)
    (.transportFailure []) (.error (.transportFailure []))
  exact ⟨h.1 rfl, h.2.1, h.2.2.1 rfl, h.2.2.2.1, h.2.2.2.2.1 rfl, h.2.2.2.2.2.1,
         h.2.2.2.2.2.2.1 rfl, h.2.2.2.2.2.2.2⟩

/-- C10: the encoded nutrient-report body always contains the key
"nutrients" (null when the list is nil), while fg, ndbno and subset are
omitted when empty; the foods-report body always contains "ndbno" while
type is omitted when empty. -/
theorem params_body_keys (p : USDANutrientsReqParams) (q : USDAFoodsReqParams) :
    ascii "nutrients" ∈ objKeys (jsonOfNutrientsParams p) ∧
    (p.nutrientsID = none →
      objLookup (ascii "nutrients") (jsonOfNutrientsParams p) = some .null) ∧
    (sliceLen p.fg = 0 → ascii "fg" ∉ objKeys (jsonOfNutrientsParams p)) ∧
    (p.ndbno = [] → ascii "ndbno" ∉ objKeys (jsonOfNutrientsParams p)) ∧
    (p.subset = [] → ascii "subset" ∉ objKeys (jsonOfNutrientsParams p)) ∧
    ascii "ndbno" ∈ objKeys (jsonOfFoodsParams q) ∧
    (q.type' = [] → ascii "type" ∉ objKeys (jsonOfFoodsParams q)) := by
  obtain ⟨fg, nd, ni, su⟩ := p
  obtain ⟨qn, qt⟩ := q
  refine ⟨?_, ?_, ?_, ?_, ?_, ?_, ?_⟩
  · simp only [jsonOfNutrientsParams, objKeys, List.map_append, List.mem_append]
    split_ifs <;> simp
  · intro h
    simp only at h
    subst h
    simp only [jsonOfNutrientsParams, jsonOfSlice]
    split_ifs <;> rfl
  · intro h
    simp only at h
    simp only [jsonOfNutrientsParams, objKeys, h, if_pos, List.nil_append,
      List.map_append, List.mem_append]
    split_ifs <;> simp <;> decide
  · intro h
    simp only at h
    simp only [jsonOfNutrientsParams, objKeys, h, List.map_append, List.mem_append]
    split_ifs <;> simp <;> decide
  · intro h
    simp only at h
    simp only [jsonOfNutrientsParams, objKeys, h, List.map_append, List.mem_append]
    split_ifs <;> simp <;> decide
  · simp only [jsonOfFoodsParams, objKeys, List.map_append, List.mem_append]
    split_ifs <;> simp
  · intro h
    simp only at h
    simp only [jsonOfFoodsParams, objKeys, h, List.map_append, List.mem_append]
    split_ifs <;> simp <;> decide

/-- Witness for C10 at all-empty parameter values. -/
theorem params_body_keys_witness :
    ascii "nutrients" ∈ objKeys (jsonOfNutrientsParams ⟨none, [], none, []⟩) ∧
    objLookup (ascii "nutrients") (jsonOfNutrientsParams ⟨none, [], none, []⟩)
      = some .null ∧
    ascii "fg" ∉ objKeys (jsonOfNutrientsParams ⟨none, [], none, []⟩) ∧
    ascii "ndbno" ∉ objKeys (jsonOfNutrientsParams ⟨none, [], none, []⟩) ∧
    ascii "subset" ∉ objKeys (jsonOfNutrientsParams ⟨none, [], none, []⟩) ∧
    ascii "ndbno" ∈ objKeys (jsonOfFoodsParams ⟨none, []⟩) ∧
    ascii "type" ∉ objKeys (jsonOfFoodsParams ⟨none, []⟩) := by
  have h := params_body_keys ⟨none, [], none, []⟩ ⟨none, []⟩
  exact ⟨h.1, h.2.1 rfl, h.2.2.1 (by decide), h.2.2.2.1 rfl, h.2.2.2.2.1 rfl,
         h.2.2.2.2.2.1, h.2.2.2.2.2.2 rfl⟩

/-- Folding firstErr over a list of errorless results keeps the accumulator. -/
theorem foldl_firstErr_none {β : Type} (l : List (β × Option GoError))
    (h : ∀ x ∈ l, x.2 = none) (a : Option GoError) :
    l.foldl (fun acc r => firstErr acc r.2) a = a := by
  induction l generalizing a with
  | nil => rfl
  | cons x t ih =>
    have hx := h x (by simp)
    simp only [List.foldl_cons, hx]
    have he : firstErr a none = a := by cases a <;> rfl
    rw [he]
    exact ih (fun y hy => h y (by simp [hy])) a

/-- Decoding an all-string JSON array into a []string recovers the strings. -/
theorem decStrSlice_str (xs : List GoStr) (cur : Option (List GoStr)) :
    decStrSlice (.arr (xs.map .str)) cur = (some xs, none) := by
  have hmap : (xs.map Json.str).map decStrElem = xs.map fun s => (s, none) := by
    rw [List.map_map]; rfl
  have h1 : ∀ l : List GoStr,
      List.map Prod.fst (l.map fun s => ((s : GoStr), (none : Option GoError))) = l := by
    intro l
    induction l with
    | nil => rfl
    | cons a t ih => simp only [List.map_cons, ih]
  have h2 : List.foldl (fun a r => firstErr a r.2) none
      (xs.map fun s => ((s : GoStr), (none : Option GoError))) = none :=
    foldl_firstErr_none _ (by
      intro x hx
      rcases List.mem_map.mp hx with ⟨s, _, rfl⟩
      rfl) none
  show (some ((xs.map Json.str).map decStrElem |>.map Prod.fst),
        ((xs.map Json.str).map decStrElem).foldl (fun a r => firstErr a r.2) none)
      = (some xs, none)
  rw [hmap, h1 xs, h2]

/-- Cons form of decStrSlice_str (the shape simp produces). -/
theorem decStrSlice_str_cons (x : GoStr) (xs : List GoStr) (cur : Option (List GoStr)) :
    decStrSlice (.arr (Json.str x :: xs.map .str)) cur = (some (x :: xs), none) :=
  decStrSlice_str (x :: xs) cur

/-- JSON null sets a []string field to nil. -/
theorem decStrSlice_null (cur : Option (List GoStr)) :
    decStrSlice .null cur = (none, none) := rfl

/-- A JSON string decodes into a string field as itself. -/
theorem decGoStr_str (s cur : GoStr) : decGoStr (.str s) cur = (s, none) := rfl

/-- Round trip for USDAListReqParams. -/
theorem decode_encode_listParams (p : USDAListReqParams) :
    decodeListParams (jsonOfListParams p) ⟨[]⟩ = (p, none) := by
  obtain ⟨lt⟩ := p
  by_cases h : lt = [] <;>
    first
    | rfl
    | simp [jsonOfListParams, h, decodeListParams, decodeStructVia, decGoStr_str,
        firstErr, List.find?,
        (by decide : keyMatch (ascii "lt") (ascii "lt") = true)]

/-- Round trip for USDASearchReqParams. -/
theorem decode_encode_searchParams (p : USDASearchReqParams) :
    decodeSearchParams (jsonOfSearchParams p) ⟨[], [], []⟩ = (p, none) := by
  obtain ⟨q, ds, fg⟩ := p
  by_cases hq : q = [] <;> by_cases hds : ds = [] <;> by_cases hfg : fg = [] <;>
    first
    | rfl
    | simp [jsonOfSearchParams, hq, hds, hfg, decodeSearchParams, decodeStructVia,
        decGoStr_str, firstErr, List.find?,
        (by decide : keyMatch (ascii "q") (ascii "q") = true),
        (by decide : keyMatch (ascii "ds") (ascii "q") = false),
        (by decide : keyMatch (ascii "ds") (ascii "ds") = true),
        (by decide : keyMatch (ascii "fg") (ascii "q") = false),
        (by decide : keyMatch (ascii "fg") (ascii "ds") = false),
        (by decide : keyMatch (ascii "fg") (ascii "fg") = true)]

/-- Round trip for USDAFoodsReqParams. -/
theorem decode_encode_foodsParams (p : USDAFoodsReqParams) :
    decodeFoodsParams (jsonOfFoodsParams p) ⟨none, []⟩ = (p, none) := by
  obtain ⟨nd, ty⟩ := p
  rcases nd with _ | ⟨l⟩ <;> by_cases hty : ty = [] <;>
    first
    | rfl
    | simp [jsonOfFoodsParams, jsonOfSlice, hty, decodeFoodsParams, decodeStructVia,
        decGoStr_str, decStrSlice_null, decStrSlice_str, decStrSlice_str_cons,
        firstErr, List.find?,
        (by decide : keyMatch (ascii "ndbno") (ascii "ndbno") = true),
        (by decide : keyMatch (ascii "type") (ascii "ndbno") = false),
        (by decide : keyMatch (ascii "type") (ascii "type") = true)]

/-- Round trip for USDANutrientsReqParams, away from the non-nil empty fg
slice that omitempty erases. -/
theorem decode_encode_nutrientsParams (p : USDANutrientsReqParams) (hfg : p.fg ≠ some []) :
    decodeNutrientsParams (jsonOfNutrientsParams p) ⟨none, [], none, []⟩ = (p, none) := by
  obtain ⟨fg, nd, ni, su⟩ := p
  rcases fg with _ | ⟨_ | ⟨x, xs⟩⟩
  · rcases ni with _ | l <;>
      by_cases hnd : nd = [] <;> by_cases hsu : su = [] <;>
      first
      | rfl
      | simp [jsonOfNutrientsParams, jsonOfSlice, hnd, hsu, sliceLen,
          decodeNutrientsParams, decodeStructVia, decGoStr_str, decStrSlice_null,
          decStrSlice_str, decStrSlice_str_cons, firstErr, List.find?,
          (by decide : keyMatch (ascii "fg") (ascii "fg") = true),
          (by decide : keyMatch (ascii "ndbno") (ascii "fg") = false),
          (by decide : keyMatch (ascii "ndbno") (ascii "ndbno") = true),
          (by decide : keyMatch (ascii "nutrients") (ascii "fg") = false),
          (by decide : keyMatch (ascii "nutrients") (ascii "ndbno") = false),
          (by decide : keyMatch (ascii "nutrients") (ascii "nutrients") = true),
          (by decide : keyMatch (ascii "subset") (ascii "fg") = false),
          (by decide : keyMatch (ascii "subset") (ascii "ndbno") = false),
          (by decide : keyMatch (ascii "subset") (ascii "nutrients") = false),
          (by decide : keyMatch (ascii "subset") (ascii "subset") = true)]
  · simp at hfg
  · rcases ni with _ | l <;>
      by_cases hnd : nd = [] <;> by_cases hsu : su = [] <;>
      first
      | rfl
      | simp [jsonOfNutrientsParams, jsonOfSlice, hnd, hsu, sliceLen,
          decodeNutrientsParams, decodeStructVia, decGoStr_str, decStrSlice_null,
          decStrSlice_str, decStrSlice_str_cons, firstErr, List.find?,
          (by decide : keyMatch (ascii "fg") (ascii "fg") = true),
          (by decide : keyMatch (ascii "ndbno") (ascii "fg") = false),
          (by decide : keyMatch (ascii "ndbno") (ascii "ndbno") = true),
          (by decide : keyMatch (ascii "nutrients") (ascii "fg") = false),
          (by decide : keyMatch (ascii "nutrients") (ascii "ndbno") = false),
          (by decide : keyMatch (ascii "nutrients") (ascii "nutrients") = true),
          (by decide : keyMatch (ascii "subset") (ascii "fg") = false),
          (by decide : keyMatch (ascii "subset") (ascii "ndbno") = false),
          (by decide : keyMatch (ascii "subset") (ascii "nutrients") = false),
          (by decide : keyMatch (ascii "subset") (ascii "subset") = true)]

/-- C5 counterexample: a nutrient-report parameter value with a non-nil
empty fg slice does not round-trip exactly: omitempty drops the length-0
slice from the body and it decodes back as nil. -/
theorem newRequest_roundtrip_cex :
    decodeNutrientsParams (jsonOfNutrientsParams ⟨some [], [], none, []⟩)
        ⟨none, [], none, []⟩
      = (⟨none, [], none, []⟩, none) ∧
    (⟨none, [], none, []⟩ : USDANutrientsReqParams) ≠ ⟨some [], [], none, []⟩ :=
  ⟨rfl, by decide⟩

/-- C5 (amended): each of the four operation calls builds a POST request
with the JSON content type, target URL equal to the base URL concatenated
with the operation's (query-extended) path, and a body that is the JSON
encoding of the parameters; parsing that body back recovers the exact
parameter structure, except that a non-nil empty fg list decodes back as
nil. -/
theorem operations_request_shape (c : USDAclient)
    (p1 : USDAListReqParams) (p2 : USDANutrientsReqParams) (p3 : USDAFoodsReqParams)
    (p4 : USDASearchReqParams) (o : Option USDAQueryOptions)
    (r1 r2 r3 r4 : Request)
    (h1 : getListReq c p1 o = .ok r1)
    (h2 : getNutrientReportReq c p2 o = .ok r2)
    (h3 : getFoodsReportV2Req c p3 = .ok r3)
    (h4 : getSearchReq c p4 o = .ok r4)
    (hfg : p2.fg ≠ some []) :
    (r1.method = ascii "POST" ∧ r1.contentType = ascii "application/json" ∧
     r1.urlStr = urlString c.baseURL ++ (addQueryOptions (ascii "list") o).1 ∧
     r1.body = jsonOfListParams p1 ∧
     decodeListParams (jsonOfListParams p1) ⟨[]⟩ = (p1, none)) ∧
    (r2.method = ascii "POST" ∧ r2.contentType = ascii "application/json" ∧
     r2.urlStr = urlString c.baseURL ++ (addQueryOptions (ascii "nutrients") o).1 ∧
     r2.body = jsonOfNutrientsParams p2 ∧
     decodeNutrientsParams (jsonOfNutrientsParams p2) ⟨none, [], none, []⟩ = (p2, none)) ∧
    (r3.method = ascii "POST" ∧ r3.contentType = ascii "application/json" ∧
     r3.urlStr = urlString c.baseURL ++ ascii "V2/reports" ∧
     r3.body = jsonOfFoodsParams p3 ∧
     decodeFoodsParams (jsonOfFoodsParams p3) ⟨none, []⟩ = (p3, none)) ∧
    (r4.method = ascii "POST" ∧ r4.contentType = ascii "application/json" ∧
     r4.urlStr = urlString c.baseURL ++ (addQueryOptions (ascii "search") o).1 ∧
     r4.body = jsonOfSearchParams p4 ∧
     decodeSearchParams (jsonOfSearchParams p4) ⟨[], [], []⟩ = (p4, none)) := by
  have shape : ∀ (path : GoStr) (body : Json) (r : Request),
      newRequest c path body = .ok r →
      r.method = ascii "POST" ∧ r.contentType = ascii "application/json" ∧
      r.urlStr = urlString c.baseURL ++ path ∧ r.body = body := by
    intro path body r h
    simp only [newRequest] at h
    rcases hu : urlParse (urlString c.baseURL ++ path) with e | u <;> rw [hu] at h
    · exact absurd h (by simp)
    · cases h
      exact ⟨rfl, rfl, rfl, rfl⟩
  refine ⟨?_, ?_, ?_, ?_⟩
  · simp only [getListReq] at h1
    rcases ha : (addQueryOptions (ascii "list") o).2 with _ | e <;> rw [ha] at h1
    · have s := shape _ _ _ h1
      exact ⟨s.1, s.2.1, s.2.2.1, s.2.2.2, decode_encode_listParams p1⟩
    · exact absurd h1 (by simp)
  · simp only [getNutrientReportReq] at h2
    rcases ha : (addQueryOptions (ascii "nutrients") o).2 with _ | e <;> rw [ha] at h2
    · have s := shape _ _ _ h2
      exact ⟨s.1, s.2.1, s.2.2.1, s.2.2.2, decode_encode_nutrientsParams p2 hfg⟩
    · exact absurd h2 (by simp)
  · have s := shape _ _ _ h3
    exact ⟨s.1, s.2.1, s.2.2.1, s.2.2.2, decode_encode_foodsParams p3⟩
  · simp only [getSearchReq] at h4
    rcases ha : (addQueryOptions (ascii "search") o).2 with _ | e <;> rw [ha] at h4
    · have s := shape _ _ _ h4
      exact ⟨s.1, s.2.1, s.2.2.1, s.2.2.2, decode_encode_searchParams p4⟩
    · exact absurd h4 (by simp)

set_option maxHeartbeats 4000000 in
/-- Witness for C5: the four requests built by the demo123 client at
zero-valued parameters, with each body round-tripping. -/
theorem operations_request_shape_witness :
    decodeListParams (jsonOfListParams ⟨[]⟩) ⟨[]⟩ = (⟨[]⟩, none) ∧
    decodeNutrientsParams (jsonOfNutrientsParams ⟨none, [], none, []⟩) ⟨none, [], none, []⟩
      = (⟨none, [], none, []⟩, none) ∧
    decodeFoodsParams (jsonOfFoodsParams ⟨none, []⟩) ⟨none, []⟩ = (⟨none, []⟩, none) ∧
    decodeSearchParams (jsonOfSearchParams ⟨[], [], []⟩) ⟨[], [], []⟩
      = (⟨[], [], []⟩, none) := by
  have h := operations_request_shape demoClient ⟨[]⟩ ⟨none, [], none, []⟩ ⟨none, []⟩
    ⟨[], [], []⟩ none
    ⟨ascii "POST", ascii "https://demo123@api.nal.usda.gov/ndb/list",
     ascii "application/json", .obj []⟩
    ⟨ascii "POST", ascii "https://demo123@api.nal.usda.gov/ndb/nutrients",
     ascii "application/json", .obj [(ascii "nutrients", .null)]⟩
    ⟨ascii "POST", ascii "https://demo123@api.nal.usda.gov/ndb/V2/reports",
     ascii "application/json", .obj [(ascii "ndbno", .null)]⟩
    ⟨ascii "POST", ascii "https://demo123@api.nal.usda.gov/ndb/search",
     ascii "application/json", .obj []⟩
    rfl rfl rfl rfl (by decide)
  exact ⟨h.1.2.2.2.2, h.2.1.2.2.2.2, h.2.2.1.2.2.2.2, h.2.2.2.2.2.2.2⟩

set_option maxRecDepth 100000

theorem plain_byte_facts : ∀ b, b < 256 → shouldEscape b .queryComponent = false →
    b ≠ '%'.toNat ∧ b ≠ '+'.toNat ∧ b ≠ '&'.toNat ∧ b ≠ '='.toNat ∧ b ≠ ';'.toNat := by
  decide

theorem hex_digit_facts : ∀ d, d < 16 →
    unhex (upperhexDigit d) = d ∧ ishex (upperhexDigit d) = true ∧
    upperhexDigit d ≠ '&'.toNat ∧ upperhexDigit d ≠ '='.toNat ∧
    upperhexDigit d ≠ ';'.toNat := by
  decide

theorem escapeByte_no_sep : ∀ b, b < 256 → ∀ c ∈ escapeByte b .queryComponent,
    c ≠ '&'.toNat ∧ c ≠ '='.toNat ∧ c ≠ ';'.toNat := by
  decide

/-- unescapeLoop ignores fuel once it covers the input length. -/
theorem unescapeLoop_nil (mode : Encoding) : ∀ f, unescapeLoop mode f [] = .ok [] := by
  intro f
  cases f <;> rfl

/-- Any sufficient fuel computes the same unescape result. -/
theorem unescapeLoop_fuel_irrel (mode : Encoding) :
    ∀ n s fuel1 fuel2, s.length ≤ n → s.length ≤ fuel1 → s.length ≤ fuel2 →
      unescapeLoop mode fuel1 s = unescapeLoop mode fuel2 s := by
  intro n
  induction n with
  | zero =>
    intro s f1 f2 h0 _ _
    have hs : s = [] := List.eq_nil_of_length_eq_zero (Nat.le_zero.mp h0)
    subst hs
    cases f1 <;> cases f2 <;> rfl
  | succ n ih =>
    intro s f1 f2 h0 h1 h2
    rcases s with _ | ⟨c, rest⟩
    · cases f1 <;> cases f2 <;> rfl
    · simp only [List.length_cons] at h0 h1 h2
      rcases f1 with _ | g1
      · omega
      rcases f2 with _ | g2
      · omega
      rcases rest with _ | ⟨e1, _ | ⟨e2, t⟩⟩
      · simp only [unescapeLoop]
        rw [unescapeLoop_nil, unescapeLoop_nil]
      · simp only [unescapeLoop]
        rw [ih [e1] g1 g2 (by simp at h0 ⊢; omega) (by simp at h1 ⊢; omega)
              (by simp at h2 ⊢; omega)]
      · simp only [unescapeLoop]
        rw [ih t g1 g2 (by simp at h0 ⊢; omega) (by simp at h1 ⊢; omega)
              (by simp at h2 ⊢; omega),
            ih (e1 :: e2 :: t) g1 g2 (by simp at h0 ⊢; omega) (by simp at h1 ⊢; omega)
              (by simp at h2 ⊢; omega)]

theorem unescapeGo_qc_plus (t : GoStr) :
    unescapeGo .queryComponent ('+'.toNat :: t)
      = (unescapeGo .queryComponent t).map (' '.toNat :: ·) := by
  show (match unescapeGo .queryComponent t with
        | .ok r => .ok (' '.toNat :: r)
        | .error e => .error e)
      = (unescapeGo .queryComponent t).map (' '.toNat :: ·)
  cases unescapeGo .queryComponent t <;> rfl

theorem unescapeGo_qc_plain (b : Nat) (t : GoStr) (hb : b < 256)
    (hse : shouldEscape b .queryComponent = false) :
    unescapeGo .queryComponent (b :: t)
      = (unescapeGo .queryComponent t).map (b :: ·) := by
  have hf := plain_byte_facts b hb hse
  show unescapeLoop .queryComponent (t.length + 1) (b :: t)
      = (unescapeGo .queryComponent t).map (b :: ·)
  simp only [unescapeLoop]
  rw [if_neg hf.1, if_neg hf.2.1, if_neg (by simp)]
  show (match unescapeGo .queryComponent t with
        | .ok r => (.ok (b :: r) : Except GoError GoStr)
        | .error e => .error e)
      = (unescapeGo .queryComponent t).map (b :: ·)
  cases unescapeGo .queryComponent t <;> rfl

theorem unescapeGo_qc_pct (h1 h2 : Nat) (t : GoStr)
    (hh1 : ishex h1 = true) (hh2 : ishex h2 = true) :
    unescapeGo .queryComponent ('%'.toNat :: h1 :: h2 :: t)
      = (unescapeGo .queryComponent t).map ((unhex h1 * 16 + unhex h2) :: ·) := by
  show unescapeLoop .queryComponent (t.length + 2 + 1) ('%'.toNat :: h1 :: h2 :: t)
      = (unescapeGo .queryComponent t).map ((unhex h1 * 16 + unhex h2) :: ·)
  simp only [unescapeLoop]
  rw [if_pos trivial, if_pos ⟨hh1, hh2⟩, if_neg (by simp), if_neg (by simp)]
  rw [unescapeLoop_fuel_irrel .queryComponent (t.length + 2) t (t.length + 2) t.length
        (by omega) (by omega) (by omega)]
  show (match unescapeGo .queryComponent t with
        | .ok r => (.ok ((unhex h1 * 16 + unhex h2) :: r) : Except GoError GoStr)
        | .error e => .error e)
      = (unescapeGo .queryComponent t).map ((unhex h1 * 16 + unhex h2) :: ·)
  cases unescapeGo .queryComponent t <;> rfl

theorem unescape_escapeByte (b : Nat) (hb : b < 256) (t : GoStr) :
    unescapeGo .queryComponent (escapeByte b .queryComponent ++ t)
      = (unescapeGo .queryComponent t).map (b :: ·) := by
  by_cases hse : shouldEscape b .queryComponent = true
  · by_cases hsp : b = ' '.toNat
    · subst hsp
      have he : escapeByte ' '.toNat .queryComponent = ['+'.toNat] := by decide
      rw [he, List.singleton_append, unescapeGo_qc_plus]
    · have he : escapeByte b .queryComponent
          = ['%'.toNat, upperhexDigit (b / 16), upperhexDigit (b % 16)] := by
        simp only [escapeByte, hse, if_true]
        rw [if_neg (fun hc => hsp hc.1)]
      have f1 := hex_digit_facts (b / 16) (by omega)
      have f2 := hex_digit_facts (b % 16) (by omega)
      rw [he]
      simp only [List.cons_append, List.nil_append]
      rw [unescapeGo_qc_pct _ _ _ f1.2.1 f2.2.1, f1.1, f2.1]
      have hb' : b / 16 * 16 + b % 16 = b := by omega
      rw [hb']
  · have hse' : shouldEscape b .queryComponent = false := by
      cases h : shouldEscape b .queryComponent
      · rfl
      · exact absurd h hse
    have he : escapeByte b .queryComponent = [b] := by
      simp only [escapeByte, hse', if_false, Bool.false_eq_true]
    rw [he, List.singleton_append, unescapeGo_qc_plain b t hb hse']

theorem unescape_escape_append (s : GoStr) : ValidStr s → ∀ t,
    unescapeGo .queryComponent (escape s .queryComponent ++ t)
      = (unescapeGo .queryComponent t).map (s ++ ·) := by
  induction s with
  | nil =>
    intro _ t
    show unescapeGo .queryComponent t = (unescapeGo .queryComponent t).map (List.append [])
    cases unescapeGo .queryComponent t <;> rfl
  | cons b s' ih =>
    intro hs t
    have hb : b < 256 := hs b (by simp)
    have hs' : ValidStr s' := fun c hc => hs c (by simp [hc])
    rw [show escape (b :: s') .queryComponent
        = escapeByte b .queryComponent ++ escape s' .queryComponent from rfl]
    rw [List.append_assoc, unescape_escapeByte b hb, ih hs' t]
    cases unescapeGo .queryComponent t <;> rfl

/-- Escaping then unescaping a query component is the identity. -/
theorem queryUnescape_queryEscape (s : GoStr) (hs : ValidStr s) :
    queryUnescape (queryEscape s) = .ok s := by
  have h := unescape_escape_append s hs []
  rw [List.append_nil] at h
  show unescapeGo .queryComponent (escape s .queryComponent) = .ok s
  rw [h]
  show (Except.ok (s ++ []) : Except GoError GoStr) = .ok s
  rw [List.append_nil]

theorem queryEscape_no_sep (s : GoStr) : ValidStr s →
    ∀ c ∈ queryEscape s, c ≠ '&'.toNat ∧ c ≠ '='.toNat ∧ c ≠ ';'.toNat := by
  induction s with
  | nil => intro _ c hc; simp [queryEscape, escape] at hc
  | cons b s' ih =>
    intro hs c hc
    have hb : b < 256 := hs b (by simp)
    have hs' : ValidStr s' := fun x hx => hs x (by simp [hx])
    rw [show queryEscape (b :: s')
        = escapeByte b .queryComponent ++ queryEscape s' from rfl] at hc
    rcases List.mem_append.mp hc with h | h
    · exact escapeByte_no_sep b hb c h
    · exact ih hs' c h

theorem queryEscape_plain (k : GoStr)
    (hk : ∀ c ∈ k, c < 256 ∧ shouldEscape c .queryComponent = false) :
    queryEscape k = k := by
  induction k with
  | nil => rfl
  | cons c k' ih =>
    have h := hk c (by simp)
    have hk' : ∀ x ∈ k', x < 256 ∧ shouldEscape x .queryComponent = false :=
      fun x hx => hk x (by simp [hx])
    rw [show queryEscape (c :: k')
        = escapeByte c .queryComponent ++ queryEscape k' from rfl]
    rw [show escapeByte c .queryComponent = [c] by
          simp only [escapeByte, h.2, if_false, Bool.false_eq_true]]
    rw [ih hk', List.singleton_append]

theorem queryUnescape_plain (k : GoStr)
    (hk : ∀ c ∈ k, c < 256 ∧ shouldEscape c .queryComponent = false) :
    queryUnescape k = .ok k := by
  have h := queryUnescape_queryEscape k (fun c hc => (hk c hc).1)
  rwa [queryEscape_plain k hk] at h

theorem splitByte_no_sep (sep : Nat) (s : GoStr) (h : ∀ c ∈ s, c ≠ sep) :
    splitByte sep s = [s] := by
  induction s with
  | nil => rfl
  | cons c t ih =>
    simp only [splitByte]
    rw [if_neg (h c (by simp)), ih (fun x hx => h x (by simp [hx]))]
    rfl

theorem splitByte_append_sep (sep : Nat) (s t : GoStr) (h : ∀ c ∈ s, c ≠ sep) :
    splitByte sep (s ++ sep :: t) = s :: splitByte sep t := by
  induction s with
  | nil =>
    simp only [List.nil_append, splitByte]
    rw [if_pos trivial]
  | cons c s' ih =>
    simp only [List.cons_append, splitByte, List.append_eq]
    rw [if_neg (h c (by simp)), ih (fun x hx => h x (by simp [hx]))]
    rfl

theorem cutByte_append (sep : Nat) (k r : GoStr) (h : ∀ c ∈ k, c ≠ sep) :
    cutByte sep (k ++ sep :: r) = (k, r, true) := by
  induction k with
  | nil =>
    simp only [List.nil_append, cutByte]
    rw [if_pos trivial]
  | cons c k' ih =>
    simp only [List.cons_append, cutByte, List.append_eq]
    rw [if_neg (h c (by simp)), ih (fun x hx => h x (by simp [hx]))]

theorem containsByte_eq_false (sep : Nat) (s : GoStr) (h : ∀ c ∈ s, c ≠ sep) :
    containsByte sep s = false := by
  simp only [containsByte, List.any_eq_false, decide_eq_true_eq]
  exact h

theorem valuesAdd_fresh (m : Values) (k : GoStr) (v : GoStr)
    (h : k ∉ m.map Prod.fst) :
    valuesAdd m k v = m ++ [(k, [v])] := by
  induction m with
  | nil => rfl
  | cons x t ih =>
    obtain ⟨k', vs⟩ := x
    simp only [valuesAdd]
    rw [if_neg (by
      intro he
      exact h (by simp [he]))]
    rw [ih (by
      intro hm
      exact h (by simp at hm ⊢; right; exact hm))]
    rfl

theorem procSeg_kv (m : Values) (k v : GoStr)
    (hk : ∀ c ∈ k, c < 256 ∧ shouldEscape c .queryComponent = false)
    (hv : ValidStr v) :
    procSeg (m, none) (k ++ '='.toNat :: queryEscape v) = (valuesAdd m k v, none) := by
  have hnos : containsByte ';'.toNat (k ++ '='.toNat :: queryEscape v) = false := by
    apply containsByte_eq_false
    intro c hc
    rcases List.mem_append.mp hc with h | h
    · exact (plain_byte_facts c (hk c h).1 (hk c h).2).2.2.2.2
    · rcases List.mem_cons.mp h with rfl | h
      · decide
      · exact (queryEscape_no_sep v hv c h).2.2
  have hcut : cutByte '='.toNat (k ++ '='.toNat :: queryEscape v)
      = (k, queryEscape v, true) :=
    cutByte_append _ _ _ (fun c hc => (plain_byte_facts c (hk c hc).1 (hk c hc).2).2.2.2.1)
  simp only [procSeg, hnos, Bool.false_eq_true, if_false, hcut]
  rw [if_neg (by simp)]
  rw [queryUnescape_plain k hk, queryUnescape_queryEscape v hv]

theorem foldl_procSeg_encode :
    ∀ (kvs : List (GoStr × GoStr)) (m : Values),
      (∀ kv ∈ kvs, ∀ c ∈ kv.1, c < 256 ∧ shouldEscape c .queryComponent = false) →
      (∀ kv ∈ kvs, ValidStr kv.2) →
      (∀ kv ∈ kvs, kv.1 ∉ m.map Prod.fst) →
      List.Pairwise (fun a b => a.1 ≠ b.1) kvs →
      (splitByte '&'.toNat
          (joinAmp (kvs.map fun kv => kv.1 ++ '='.toNat :: queryEscape kv.2))).foldl
          procSeg (m, none)
        = (m ++ kvs.map fun kv => (kv.1, [kv.2]), none) := by
  intro kvs
  induction kvs with
  | nil =>
    intro m _ _ _ _
    show (splitByte '&'.toNat (joinAmp [])).foldl procSeg (m, none) = (m ++ [], none)
    simp [joinAmp, splitByte, procSeg, containsByte]
  | cons x t ih =>
    intro m hk hv hf hp
    obtain ⟨k, v⟩ := x
    have hx1 : ∀ c ∈ k, c < 256 ∧ shouldEscape c .queryComponent = false :=
      fun c hc => hk (k, v) (by simp) c hc
    have hseg : ∀ c ∈ k ++ '='.toNat :: queryEscape v, c ≠ '&'.toNat := by
      intro c hc
      rcases List.mem_append.mp hc with h | h
      · exact (plain_byte_facts c (hx1 c h).1 (hx1 c h).2).2.2.1
      · rcases List.mem_cons.mp h with rfl | h
        · decide
        · exact (queryEscape_no_sep v (hv (k, v) (by simp)) c h).1
    cases t with
    | nil =>
      simp only [List.map_cons, List.map_nil, joinAmp]
      rw [splitByte_no_sep _ _ hseg]
      simp only [List.foldl_cons, List.foldl_nil]
      rw [procSeg_kv m k v hx1 (hv (k, v) (by simp))]
      rw [valuesAdd_fresh m k v (hf (k, v) (by simp))]
    | cons y t2 =>
      simp only [List.map_cons, joinAmp]
      rw [splitByte_append_sep _ _ _ hseg]
      simp only [List.foldl_cons]
      rw [procSeg_kv m k v hx1 (hv (k, v) (by simp))]
      rw [valuesAdd_fresh m k v (hf (k, v) (by simp))]
      have hp' := List.pairwise_cons.mp hp
      have hI := ih (m ++ [(k, [v])])
        (fun kv hkv c hc => hk kv (by simp [hkv]) c hc)
        (fun kv hkv => hv kv (by simp [hkv]))
        (by
          intro kv hkv
          simp only [List.map_append, List.mem_append]
          rintro (h | h)
          · exact hf kv (by simp [hkv]) h
          · simp at h
            exact (hp'.1 kv hkv) h.symm)
        hp'.2
      simp only [List.map_cons] at hI
      rw [hI]
      simp

theorem parseQuery_encode (kvs : List (GoStr × GoStr))
    (hk : ∀ kv ∈ kvs, ∀ c ∈ kv.1, c < 256 ∧ shouldEscape c .queryComponent = false)
    (hv : ∀ kv ∈ kvs, ValidStr kv.2)
    (hp : List.Pairwise (fun a b => a.1 ≠ b.1) kvs) :
    parseQuery (joinAmp (kvs.map fun kv => kv.1 ++ '='.toNat :: queryEscape kv.2))
      = (kvs.map fun kv => (kv.1, [kv.2]), none) := by
  cases kvs with
  | nil => rfl
  | cons x t =>
    obtain ⟨k, v⟩ := x
    have hne : joinAmp (((k, v) :: t).map fun kv => kv.1 ++ '='.toNat :: queryEscape kv.2)
        ≠ [] := by
      cases t <;> cases k <;> simp [joinAmp]
    unfold parseQuery
    rw [if_neg hne]
    exact foldl_procSeg_encode ((k, v) :: t) [] hk hv (by simp) hp

theorem natDigitsAux_valid : ∀ fuel n, ValidStr (natDigitsAux fuel n) := by
  intro fuel
  induction fuel with
  | zero => intro n b hb; simp [natDigitsAux] at hb
  | succ f ih =>
    intro n b hb
    simp only [natDigitsAux] at hb
    by_cases h : n < 10
    · rw [if_pos h] at hb
      simp at hb
      have h0 : '0'.toNat = 48 := rfl
      omega
    · rw [if_neg h] at hb
      rcases List.mem_append.mp hb with h1 | h1
      · exact ih _ b h1
      · simp at h1
        have h0 : '0'.toNat = 48 := rfl
        have : n % 10 < 10 := Nat.mod_lt _ (by omega)
        omega

/-- Every byte of a formatted Go int is a real byte. -/
theorem itoa_valid : ∀ n : Int, ValidStr (itoa n) := by
  intro n b hb
  cases n with
  | ofNat m => exact natDigitsAux_valid _ _ b hb
  | negSucc m =>
    rcases List.mem_cons.mp hb with rfl | h
    · decide
    · exact natDigitsAux_valid _ _ b h

/-- C2: for every options value and every parseable base path, addQueryOptions
appends exactly the encoded non-default fields as the query string, and
parsing that query string back yields exactly the set of non-default fields
among max, offset and sort with their given values (values URL-escaped in
transit and recovered exactly). -/
theorem addQueryOptions_encode_parse (o : USDAQueryOptions) (p : GoStr) (u : URL)
    (hvs : ValidStr o.sort) (hp : urlParse p = .ok u) :
    addQueryOptions p (some o)
      = (urlString { u with rawQuery := valuesEncode (queryValues o) }, none) ∧
    parseQuery (valuesEncode (queryValues o)) =
      ((if o.max = 0 then [] else [(ascii "max", [itoa o.max])]) ++
       (if o.offset = 0 then [] else [(ascii "offset", [itoa o.offset])]) ++
       (if o.sort = [] then [] else [(ascii "sort", [o.sort])]), none) := by
  constructor
  · simp only [addQueryOptions]
    rw [hp]
  · obtain ⟨mx, off, srt⟩ := o
    simp only at hvs
    by_cases hm : mx = 0 <;> by_cases ho : off = 0 <;> by_cases hs : srt = [] <;>
      simp only [queryValues, hm, ho, hs, if_true, if_false, ite_true, ite_false,
        List.nil_append, List.append_nil, List.cons_append]
    · rfl
    · rw [show valuesEncode [(ascii "sort", [srt])]
          = joinAmp ([(ascii "sort", srt)].map
              fun kv => kv.1 ++ '='.toNat :: queryEscape kv.2) from rfl]
      rw [parseQuery_encode _
        (by
          intro kv hkv
          simp only [List.mem_cons, List.not_mem_nil, or_false] at hkv
          subst hkv
          show ∀ c ∈ ascii "sort", c < 256 ∧ shouldEscape c .queryComponent = false
          decide)
        (by
          intro kv hkv
          simp only [List.mem_cons, List.not_mem_nil, or_false] at hkv
          subst hkv
          exact hvs)
        (by
          simp)]
      rfl
    · rw [show valuesEncode [(ascii "offset", [itoa off])]
          = joinAmp ([(ascii "offset", itoa off)].map
              fun kv => kv.1 ++ '='.toNat :: queryEscape kv.2) from rfl]
      rw [parseQuery_encode _
        (by
          intro kv hkv
          simp only [List.mem_cons, List.not_mem_nil, or_false] at hkv
          subst hkv
          show ∀ c ∈ ascii "offset", c < 256 ∧ shouldEscape c .queryComponent = false
          decide)
        (by
          intro kv hkv
          simp only [List.mem_cons, List.not_mem_nil, or_false] at hkv
          subst hkv
          exact itoa_valid off)
        (by
          simp)]
      rfl
    · rw [show valuesEncode [(ascii "offset", [itoa off]), (ascii "sort", [srt])]
          = joinAmp ([(ascii "offset", itoa off), (ascii "sort", srt)].map
              fun kv => kv.1 ++ '='.toNat :: queryEscape kv.2) from rfl]
      rw [parseQuery_encode _
        (by
          intro kv hkv
          simp only [List.mem_cons, List.not_mem_nil, or_false] at hkv
          rcases hkv with rfl | rfl
          · show ∀ c ∈ ascii "offset", c < 256 ∧ shouldEscape c .queryComponent = false
            decide
          · show ∀ c ∈ ascii "sort", c < 256 ∧ shouldEscape c .queryComponent = false
            decide)
        (by
          intro kv hkv
          simp only [List.mem_cons, List.not_mem_nil, or_false] at hkv
          rcases hkv with rfl | rfl
          · exact itoa_valid off
          · exact hvs)
        (by
          refine List.Pairwise.cons ?_ (List.Pairwise.cons ?_ List.Pairwise.nil)
          · intro b hb
            rw [List.mem_singleton] at hb
            subst hb
            show ascii "offset" ≠ ascii "sort"
            decide
          · intro b hb
            simp at hb)]
      rfl
    · rw [show valuesEncode [(ascii "max", [itoa mx])]
          = joinAmp ([(ascii "max", itoa mx)].map
              fun kv => kv.1 ++ '='.toNat :: queryEscape kv.2) from rfl]
      rw [parseQuery_encode _
        (by
          intro kv hkv
          simp only [List.mem_cons, List.not_mem_nil, or_false] at hkv
          subst hkv
          show ∀ c ∈ ascii "max", c < 256 ∧ shouldEscape c .queryComponent = false
          decide)
        (by
          intro kv hkv
          simp only [List.mem_cons, List.not_mem_nil, or_false] at hkv
          subst hkv
          exact itoa_valid mx)
        (by
          simp)]
      rfl
    · rw [show valuesEncode [(ascii "max", [itoa mx]), (ascii "sort", [srt])]
          = joinAmp ([(ascii "max", itoa mx), (ascii "sort", srt)].map
              fun kv => kv.1 ++ '='.toNat :: queryEscape kv.2) from rfl]
      rw [parseQuery_encode _
        (by
          intro kv hkv
          simp only [List.mem_cons, List.not_mem_nil, or_false] at hkv
          rcases hkv with rfl | rfl
          · show ∀ c ∈ ascii "max", c < 256 ∧ shouldEscape c .queryComponent = false
            decide
          · show ∀ c ∈ ascii "sort", c < 256 ∧ shouldEscape c .queryComponent = false
            decide)
        (by
          intro kv hkv
          simp only [List.mem_cons, List.not_mem_nil, or_false] at hkv
          rcases hkv with rfl | rfl
          · exact itoa_valid mx
          · exact hvs)
        (by
          refine List.Pairwise.cons ?_ (List.Pairwise.cons ?_ List.Pairwise.nil)
          · intro b hb
            rw [List.mem_singleton] at hb
            subst hb
            show ascii "max" ≠ ascii "sort"
            decide
          · intro b hb
            simp at hb)]
      rfl
    · rw [show valuesEncode [(ascii "max", [itoa mx]), (ascii "offset", [itoa off])]
          = joinAmp ([(ascii "max", itoa mx), (ascii "offset", itoa off)].map
              fun kv => kv.1 ++ '='.toNat :: queryEscape kv.2) from rfl]
      rw [parseQuery_encode _
        (by
          intro kv hkv
          simp only [List.mem_cons, List.not_mem_nil, or_false] at hkv
          rcases hkv with rfl | rfl
          · show ∀ c ∈ ascii "max", c < 256 ∧ shouldEscape c .queryComponent = false
            decide
          · show ∀ c ∈ ascii "offset", c < 256 ∧ shouldEscape c .queryComponent = false
            decide)
        (by
          intro kv hkv
          simp only [List.mem_cons, List.not_mem_nil, or_false] at hkv
          rcases hkv with rfl | rfl
          · exact itoa_valid mx
          · exact itoa_valid off)
        (by
          refine List.Pairwise.cons ?_ (List.Pairwise.cons ?_ List.Pairwise.nil)
          · intro b hb
            rw [List.mem_singleton] at hb
            subst hb
            show ascii "max" ≠ ascii "offset"
            decide
          · intro b hb
            simp at hb)]
      rfl
    · rw [show valuesEncode [(ascii "max", [itoa mx]), (ascii "offset", [itoa off]), (ascii "sort", [srt])]
          = joinAmp ([(ascii "max", itoa mx), (ascii "offset", itoa off), (ascii "sort", srt)].map
              fun kv => kv.1 ++ '='.toNat :: queryEscape kv.2) from rfl]
      rw [parseQuery_encode _
        (by
          intro kv hkv
          simp only [List.mem_cons, List.not_mem_nil, or_false] at hkv
          rcases hkv with rfl | rfl | rfl
          · show ∀ c ∈ ascii "max", c < 256 ∧ shouldEscape c .queryComponent = false
            decide
          · show ∀ c ∈ ascii "offset", c < 256 ∧ shouldEscape c .queryComponent = false
            decide
          · show ∀ c ∈ ascii "sort", c < 256 ∧ shouldEscape c .queryComponent = false
            decide)
        (by
          intro kv hkv
          simp only [List.mem_cons, List.not_mem_nil, or_false] at hkv
          rcases hkv with rfl | rfl | rfl
          · exact itoa_valid mx
          · exact itoa_valid off
          · exact hvs)
        (by
          refine List.Pairwise.cons ?_
            (List.Pairwise.cons ?_ (List.Pairwise.cons ?_ List.Pairwise.nil))
          · intro b hb
            rcases List.mem_cons.mp hb with rfl | hb
            · show ascii "max" ≠ ascii "offset"
              decide
            · rw [List.mem_singleton] at hb
              subst hb
              show ascii "max" ≠ ascii "sort"
              decide
          · intro b hb
            rw [List.mem_singleton] at hb
            subst hb
            show ascii "offset" ≠ ascii "sort"
            decide
          · intro b hb
            simp at hb)]
      rfl

/-- Witness for C2 at max -5, offset 7, sort "a b" on the path "search". -/
theorem addQueryOptions_encode_parse_witness :
    addQueryOptions (ascii "search") (some ⟨-5, 7, ascii "a b"⟩)
      = (urlString { (⟨[], [], none, [], ascii "search", [], false, false, [], [], []⟩ : URL)
            with rawQuery := valuesEncode (queryValues ⟨-5, 7, ascii "a b"⟩) }, none) ∧
    parseQuery (valuesEncode (queryValues ⟨-5, 7, ascii "a b"⟩)) =
      ((if (-5 : Int) = 0 then [] else [(ascii "max", [itoa (-5)])]) ++
       (if (7 : Int) = 0 then [] else [(ascii "offset", [itoa 7])]) ++
       (if ascii "a b" = [] then [] else [(ascii "sort", [ascii "a b"])]), none) :=
  addQueryOptions_encode_parse ⟨-5, 7, ascii "a b"⟩ (ascii "search")
    ⟨[], [], none, [], ascii "search", [], false, false, [], [], []⟩ (by decide) rfl

/-- C3 counterexample: with an all-default options value present, a path that
already carries a query string is not returned unchanged: the query string is
replaced by the encoding of the options (empty here), so list?x=1 comes back
as list. -/
theorem addQueryOptions_default_cex :
    addQueryOptions (ascii "list?x=1") (some ⟨0, 0, []⟩) = (ascii "list", none) ∧
    ascii "list" ≠ ascii "list?x=1" :=
  ⟨by decide, by decide⟩

/-- C3 (amended): with options absent the path is returned unchanged, for
every path; with an options value present whose fields are all defaults, the
path is returned unchanged provided it parses as a URL with no query
component and reserializes to itself (an existing query string is stripped). -/
theorem addQueryOptions_default_amended (q p : GoStr) (u : URL)
    (h1 : urlParse p = .ok u) (h2 : u.rawQuery = []) (h3 : urlString u = p) :
    addQueryOptions q none = (q, none) ∧
    addQueryOptions p (some ⟨0, 0, []⟩) = (p, none) := by
  refine ⟨rfl, ?_⟩
  simp only [addQueryOptions]
  rw [h1]
  show (urlString { u with rawQuery := valuesEncode (queryValues ⟨0, 0, []⟩) }, none)
      = (p, none)
  have hq : valuesEncode (queryValues ⟨0, 0, []⟩) = [] := rfl
  rw [hq]
  have hu : { u with rawQuery := ([] : GoStr) } = u := by
    cases u
    simp_all
  rw [hu, h3]

/-- Witness for C3 at the paths "x" and "list". -/
theorem addQueryOptions_default_amended_witness :
    addQueryOptions (ascii "x") none = (ascii "x", none) ∧
    addQueryOptions (ascii "list") (some ⟨0, 0, []⟩) = (ascii "list", none) :=
  addQueryOptions_default_amended (ascii "x") (ascii "list")
    ⟨[], [], none, [], ascii "list", [], false, false, [], [], []⟩ rfl rfl rfl
